import Mathlib

/-!
Verification of the fetch-summarize-aggregate pipeline of the repository
`my-analyzer-project` (files `main.py`, `utils/github_fetcher.py`,
`utils/summarizer.py`).

Text is modelled as `List Char` (`Str`).  Python functions are embedded as
executable Lean functions; external capabilities (the GitHub contents API,
the Gemini and OpenAI completion services, the file system, wall-clock
timestamps) are passed in as explicit parameters, matching the spec's
capability boundary.  Character-class predicates (`str.isalnum`, `\w` in
regular expressions, `str.lower`) are modelled over the ASCII range, which
covers the path/extension/content alphabets the claims quantify over.
-/

set_option maxRecDepth 40000

abbrev Str := List Char

/-! ## Python string primitives -/

/-- The whitespace characters of `string.whitespace` as used by the
`textwrap` word-separation regex (`_whitespace = '\t\n\x0b\x0c\r '`). -/
def twWhitespace : List Char := ['\t', '\n', '\x0b', '\x0c', '\r', ' ']

def isTWws (c : Char) : Bool := twWhitespace.contains c

/-- The characters removed by Python `str.strip()` with no argument
(Unicode whitespace, as used by `chunk.strip()` in `textwrap` and by
`.strip()` calls in `summarizer.py`). -/
def pyWhitespace : List Char :=
  ['\t', '\n', '\x0b', '\x0c', '\r', '\x1c', '\x1d', '\x1e', '\x1f', ' ',
   '\u0085', ' ', ' ', ' ', ' ', ' ', ' ',
   ' ', ' ', ' ', ' ', ' ', ' ', ' ',
   ' ', ' ', ' ', ' ', '　']

def isPyWS (c : Char) : Bool := pyWhitespace.contains c

/-- Python `s.strip()`: remove leading and trailing whitespace. -/
def pyStrip (l : Str) : Str :=
  ((l.dropWhile isPyWS).reverse.dropWhile isPyWS).reverse

/-- Python `s.rstrip()`: remove trailing whitespace. -/
def pyRstrip (l : Str) : Str :=
  (l.reverse.dropWhile isPyWS).reverse

/-- `s.strip() == ''`: every character is whitespace. -/
def isAllPyWS (l : Str) : Bool := l.all isPyWS

/-- Truthiness of a Python string: non-empty. -/
def pyTruthy (l : Str) : Bool := !l.isEmpty

/-- Truthiness of an optional Python string (`None` and `''` are falsy). -/
def pyTruthyOpt : Option Str → Bool
  | none => false
  | some s => pyTruthy s

/-- Python `str.expandtabs(tabsize)` helper: `col` is the position in the
current line; a tab is replaced by spaces up to the next multiple of
`tabsize`, and the column counter resets at `'\n'` and `'\r'`. -/
def expandtabsGo (tabsize : Nat) : Nat → Str → Str
  | _, [] => []
  | col, c :: cs =>
    if c = '\t' then
      let pad := tabsize - col % tabsize
      List.replicate pad ' ' ++ expandtabsGo tabsize (col + pad) cs
    else if c = '\n' ∨ c = '\r' then
      c :: expandtabsGo tabsize 0 cs
    else
      c :: expandtabsGo tabsize (col + 1) cs

/-- Python `s.expandtabs()` with the default tab size 8, applied by
`textwrap` because `expand_tabs=True` is left at its default. -/
def expandtabs (l : Str) : Str := expandtabsGo 8 0 l

/-- Decimal representation of a natural number (Python `str(n)` and
f-string interpolation of non-negative integers). -/
def natStr (n : Nat) : Str := (Nat.repr n).toList

/-- Python `s.replace(pat, repl)` for a non-empty pattern: replace
non-overlapping occurrences left to right.  (For `pat = []` the input is
returned unchanged; the sources only replace non-empty patterns.) -/
def replaceSubstrGo (pat repl : Str) : Nat → Str → Str
  | 0, l => l
  | _ + 1, [] => []
  | fuel + 1, c :: cs =>
    if pat ≠ [] ∧ pat.isPrefixOf (c :: cs) then
      repl ++ replaceSubstrGo pat repl fuel ((c :: cs).drop pat.length)
    else
      c :: replaceSubstrGo pat repl fuel cs

def replaceSubstr (pat repl l : Str) : Str := replaceSubstrGo pat repl l.length l

/-- Python ASCII `str.lower` on one character. -/
def pyLowerChar (c : Char) : Char := c.toLower

/-- `os.path.basename` on a POSIX system: the part after the last `'/'`. -/
def basename (p : Str) : Str := (p.reverse.takeWhile (fun c => c ≠ '/')).reverse

/-! ## Chunker (`summarizer.chunk_content`, `summarizer.py` lines 69-74)

`chunk_content` is
`textwrap.wrap(content, width=chunk_size, break_long_words=False,
replace_whitespace=False)` with all other `TextWrapper` options at their
defaults (`expand_tabs=True`, `tabsize=8`, `drop_whitespace=True`,
`break_on_hyphens=True`, empty indents, `fix_sentence_endings=False`,
`max_lines=None`).  The embedding below follows CPython's `textwrap`
implementation: `_munge_whitespace` (tab expansion only), `_split` (the
`wordsep_re` tokenizer, including the hyphenated-word and em-dash break
rules), and `_wrap_chunks` (the greedy line builder with the
`drop_whitespace` and non-breaking long-word rules). -/

/-- `\w` of Python's `re` module, over ASCII: letters, digits, underscore. -/
def isWordChar (c : Char) : Bool := c.isAlphanum || c = '_'

/-- The `letter` class `[^\d\W]` of `textwrap.wordsep_re`: word characters
that are not digits. -/
def isLetterChar (c : Char) : Bool := isWordChar c && !c.isDigit

/-- The `word_punct` class `[\w!"'&.,?]` of `textwrap.wordsep_re`. -/
def isWordPunct (c : Char) : Bool :=
  isWordChar c || ['!', '"', Char.ofNat 39, '&', '.', ',', '?'].contains c

/-- Length of the leading run of `'-'` characters. -/
def hyphenRun : Str → Nat
  | [] => 0
  | c :: cs => if c = '-' then hyphenRun cs + 1 else 0

/-- The em-dash condition of `wordsep_re`: the text ahead starts with a
maximal run of at least two hyphens followed by a word character
(`-{2,}(?=\w)` after greedy backtracking). -/
def emDashAhead (rest : Str) : Bool :=
  let k := hyphenRun rest
  decide (2 ≤ k) &&
    (match rest.drop k with
     | c :: _ => isWordChar c
     | [] => false)

/-- Lookbehind of the hyphenated-word alternative
`-(?:(?<=[^\d\W]{2}-)|(?<=[^\d\W]-[^\d\W]-))`: `fullRev` is the reversed
text before the hyphen just consumed. -/
def hyphenLookbehind (fullRev : Str) : Bool :=
  match fullRev with
  | a :: b :: _ =>
    (isLetterChar a && isLetterChar b) ||
      (match fullRev with
       | a :: b :: d :: _ => isLetterChar a && b = '-' && isLetterChar d
       | _ => false)
  | _ => false

/-- Lookahead `(?=[^\d\W]-?[^\d\W])` after the consumed hyphen. -/
def hyphenLookahead (rest : Str) : Bool :=
  match rest with
  | c1 :: r =>
    isLetterChar c1 &&
      (match r with
       | c2 :: r2 =>
         isLetterChar c2 ||
           (c2 = '-' &&
             (match r2 with
              | c3 :: _ => isLetterChar c3
              | [] => false))
       | [] => false)
  | [] => false

/-- Scans one word token of `wordsep_re`: the lazy `[^\s]+?` followed by
one of the three stop alternatives (hyphenated-word break, end of word
before whitespace or end of text, or an em-dash ahead after word
punctuation), tried in the regex's alternation order at each length.
`prefixRev` is the reversed text before the word, `accRev` the reversed
characters consumed so far (never empty).  Returns the token and the
remaining text. -/
def wordScan (prefixRev accRev : Str) : Str → Str × Str
  | [] => (accRev.reverse, [])
  | c :: cs =>
    if c = '-' && hyphenLookbehind (accRev ++ prefixRev) && hyphenLookahead cs then
      (accRev.reverse ++ ['-'], cs)
    else if isTWws c then
      (accRev.reverse, c :: cs)
    else if
        (match accRev with
         | p :: _ => isWordPunct p
         | [] => false) && emDashAhead (c :: cs) then
      (accRev.reverse, c :: cs)
    else
      wordScan prefixRev (c :: accRev) cs

theorem wordScan_append (prefixRev : Str) :
    ∀ (rest accRev : Str),
      (wordScan prefixRev accRev rest).1 ++ (wordScan prefixRev accRev rest).2 =
        accRev.reverse ++ rest := by
  intro rest
  induction rest with
  | nil => intro accRev; simp [wordScan]
  | cons c cs ih =>
    intro accRev
    simp only [wordScan]
    split
    · rename_i hA
      simp only [Bool.and_eq_true, decide_eq_true_eq] at hA
      rw [hA.1.1]
      simp
    · split
      · simp
      · split
        · simp
        · rw [ih (c :: accRev)]
          simp

theorem wordScan_fst_ne_nil (prefixRev : Str) :
    ∀ (rest accRev : Str), accRev ≠ [] → (wordScan prefixRev accRev rest).1 ≠ [] := by
  intro rest
  induction rest with
  | nil =>
    intro accRev h
    simpa [wordScan] using h
  | cons c cs ih =>
    intro accRev h
    simp only [wordScan]
    split
    · simp [h]
    · split
      · simpa using h
      · split
        · simpa using h
        · exact ih (c :: accRev) (by simp)

theorem wordScan_snd_length_le (prefixRev : Str) :
    ∀ (rest accRev : Str), (wordScan prefixRev accRev rest).2.length ≤ rest.length := by
  intro rest
  induction rest with
  | nil => intro accRev; simp [wordScan]
  | cons c cs ih =>
    intro accRev
    simp only [wordScan]
    split
    · simp
    · split
      · simp
      · split
        · simp
        · exact le_trans (ih (c :: accRev)) (by simp)

/-- The tokenizer of `textwrap.TextWrapper._split` with
`break_on_hyphens=True`: repeatedly match `wordsep_re` (whitespace run,
em-dash between words, or word) at the current position.  `prefixRev` is
the reversed text already consumed (needed by the lookbehind assertions).
Empty tokens are never produced, matching the `[c for c in chunks if c]`
filter. -/
def tokGo (prefixRev : Str) : Nat → Str → List Str
  | 0, _ => []
  | _ + 1, [] => []
  | fuel + 1, c :: cs =>
    if isTWws c then
      let run := c :: cs.takeWhile isTWws
      run :: tokGo (run.reverse ++ prefixRev) fuel (cs.dropWhile isTWws)
    else if
        (match prefixRev with
         | p :: _ => isWordPunct p
         | [] => false) && emDashAhead (c :: cs) then
      let k := hyphenRun (c :: cs)
      List.replicate k '-' ::
        tokGo ((List.replicate k '-') ++ prefixRev) fuel ((c :: cs).drop k)
    else
      let w := wordScan prefixRev [c] cs
      w.1 :: tokGo (w.1.reverse ++ prefixRev) fuel w.2

def tokenizeTW (l : Str) : List Str := tokGo [] l.length l

/-- Greedy chunk accumulation of `_wrap_chunks`: take chunks while the
current line length plus the next chunk still fits in `width`. -/
def takeGreedy (width : Nat) : Nat → List Str → List Str × List Str
  | _, [] => ([], [])
  | curLen, c :: cs =>
    if curLen + c.length ≤ width then
      (c :: (takeGreedy width (curLen + c.length) cs).1,
       (takeGreedy width (curLen + c.length) cs).2)
    else
      ([], c :: cs)

/-- `_handle_long_word` with `break_long_words=False`: when the next chunk
is longer than the line width and the current line is empty, the whole
chunk is put on the line by itself; otherwise it is left for the next
line. -/
def longWordAdjust (width : Nat) (cur rest : List Str) : List Str × List Str :=
  match rest with
  | [] => (cur, [])
  | c :: cs =>
    if width < c.length ∧ cur = [] then (cur ++ [c], cs) else (cur, c :: cs)

/-- The `drop_whitespace` rule at the end of a line: if the last chunk of
the line is all whitespace (`cur_line[-1].strip() == ''`), delete it. -/
def dropTrailingWS (cur : List Str) : List Str :=
  match cur.reverse with
  | [] => []
  | last :: restRev => if isAllPyWS last then restRev.reverse else cur

/-- The `drop_whitespace` rule at the start of a line: if at least one
line has been produced and the first remaining chunk is all whitespace,
delete it. -/
def dropLeadingWS (linesNonempty : Bool) (chunks : List Str) : List Str :=
  match chunks with
  | [] => []
  | c :: cs => if linesNonempty && isAllPyWS c then cs else c :: cs

/-- One iteration of the `while chunks` loop of `_wrap_chunks`: produce at
most one output line and the remaining chunks. -/
def wrapStep (linesNonempty : Bool) (width : Nat) (chunks : List Str) :
    Option Str × List Str :=
  let chunks1 := dropLeadingWS linesNonempty chunks
  let p := takeGreedy width 0 chunks1
  let q := longWordAdjust width p.1 p.2
  let cur3 := dropTrailingWS q.1
  (if cur3.isEmpty then none else some cur3.flatten, q.2)

theorem takeGreedy_append (width : Nat) :
    ∀ (l : List Str) (n : Nat), (takeGreedy width n l).1 ++ (takeGreedy width n l).2 = l := by
  intro l
  induction l with
  | nil => intro n; simp [takeGreedy]
  | cons c cs ih =>
    intro n
    simp only [takeGreedy]
    split
    · simpa using ih (n + c.length)
    · simp


theorem longWordAdjust_append (width : Nat) (cur rest : List Str) :
    (longWordAdjust width cur rest).1 ++ (longWordAdjust width cur rest).2 = cur ++ rest := by
  cases rest with
  | nil => simp [longWordAdjust]
  | cons c cs =>
    simp only [longWordAdjust]
    split
    · simp
    · simp

theorem longWordAdjust_core_length (w : Nat) (a : Str) (as : List Str) :
    ((longWordAdjust w (takeGreedy w 0 (a :: as)).1 (takeGreedy w 0 (a :: as)).2).2).length
      ≤ as.length := by
  simp only [takeGreedy]
  split
  · have happ := takeGreedy_append w as (0 + a.length)
    cases h2 : (takeGreedy w (0 + a.length) as).2 with
    | nil => simp [longWordAdjust]
    | cons r rs =>
      simp only [h2, longWordAdjust]
      split
      · rename_i hh
        exact absurd hh.2 (by simp)
      · have hsum : (takeGreedy w (0 + a.length) as).1.length + (r :: rs).length
            = as.length := by
          rw [← h2, ← List.length_append, happ]
        simp only [List.length_cons] at hsum ⊢
        omega
  · rename_i hgt
    simp only [longWordAdjust]
    split
    · simp
    · rename_i hcond
      exact absurd ⟨by omega, trivial⟩ hcond

theorem wrapStep_snd_length (b : Bool) (width : Nat) (c : Str) (cs : List Str) :
    ((wrapStep b width (c :: cs)).2).length ≤ cs.length := by
  simp only [wrapStep]
  cases hb : dropLeadingWS b (c :: cs) with
  | nil => simp [takeGreedy, longWordAdjust]
  | cons a as =>
    have h1 := longWordAdjust_core_length width a as
    have hlen : (a :: as).length ≤ (c :: cs).length := by
      rw [← hb]
      simp only [dropLeadingWS]
      split
      · simp
      · simp
    simp only [List.length_cons] at hlen
    omega

/-- The `while chunks` loop of `_wrap_chunks`, accumulating output lines
in order.  Each iteration consumes at least one chunk. -/
def wrapChunksGo (width : Nat) : Nat → List Str → List Str → List Str
  | 0, lines, _ => lines
  | _ + 1, lines, [] => lines
  | fuel + 1, lines, c :: cs =>
    let s := wrapStep (!lines.isEmpty) width (c :: cs)
    wrapChunksGo width fuel (lines ++ s.1.toList) s.2

/-- `summarizer.chunk_content` (`summarizer.py` lines 72-74):
`textwrap.wrap(content, width=chunk_size, break_long_words=False,
replace_whitespace=False)`.  Defined for `1 ≤ chunk_size` (CPython raises
`ValueError` for `width <= 0`). -/
def chunk_content (content : Str) (chunk_size : Nat) : List Str :=
  let chunks := tokenizeTW (expandtabs content)
  wrapChunksGo chunk_size chunks.length [] chunks

/-- `CHUNK_SIZE = 4000` (`summarizer.py` line 69). -/
def CHUNK_SIZE : Nat := 4000

/-! Fidelity checks of the `textwrap.wrap` embedding against CPython's
observable behaviour with the same options. -/

example : chunk_content "a b".toList 2 = ["a".toList, "b".toList] := by decide
example : chunk_content "  ".toList 4000 = [] := by decide
example : chunk_content "hello world this is a test".toList 10 =
    ["hello".toList, "world this".toList, "is a test".toList] := by decide
example : chunk_content "foo-bar".toList 4 = ["foo-".toList, "bar".toList] := by decide
example : chunk_content "ab--cd".toList 3 =
    ["ab".toList, "--".toList, "cd".toList] := by decide
example : chunk_content "a\tb".toList 10 = ["a       b".toList] := by decide
example : chunk_content "  ab".toList 4 = ["  ab".toList] := by decide
example : chunk_content "   a".toList 2 = ["a".toList] := by decide
example : chunk_content "xx\nyy".toList 4 = ["xx".toList, "yy".toList] := by decide
example : chunk_content "word".toList 2 = ["word".toList] := by decide
example : chunk_content "--x".toList 2 = ["--x".toList] := by decide
example : chunk_content "a.b,c".toList 3 = ["a.b,c".toList] := by decide
example : chunk_content "one-two-three".toList 6 =
    ["one-".toList, "two-".toList, "three".toList] := by decide
example : chunk_content "hy-phen word".toList 5 =
    ["hy-".toList, "phen".toList, "word".toList] := by decide
example : chunk_content "a --- b".toList 3 =
    ["a".toList, "---".toList, "b".toList] := by decide
example : chunk_content "a_b-c_d".toList 4 = ["a_b-".toList, "c_d".toList] := by decide
example : chunk_content "12-34".toList 3 = ["12-34".toList] := by decide
example : chunk_content "ab-".toList 2 = ["ab-".toList] := by decide
example : chunk_content "xxxxxxxxx yyy".toList 4 =
    ["xxxxxxxxx".toList, "yyy".toList] := by decide
example : chunk_content "  zzzzzz  ".toList 4 = ["zzzzzz".toList] := by decide
example : chunk_content "w w w w ".toList 3 = ["w w".toList, "w w".toList] := by decide
example : chunk_content "tab\tx".toList 4 = ["tab".toList, "x".toList] := by decide
example : chunk_content "\t".toList 4 = [] := by decide
example : chunk_content "a\x0bb c".toList 3 = ["a\x0bb".toList, "c".toList] := by decide

/-! Structural lemmas about the Chunker, leading to claim C1. -/

/-- The non-whitespace characters of a text, in order. -/
def nonWS (l : Str) : Str := l.filter (fun c => !isPyWS c)

theorem nonWS_append (a b : Str) : nonWS (a ++ b) = nonWS a ++ nonWS b := by
  simp [nonWS]

theorem nonWS_allPyWS {l : Str} (h : isAllPyWS l = true) : nonWS l = [] := by
  simp only [isAllPyWS, List.all_eq_true] at h
  simp only [nonWS, List.filter_eq_nil_iff]
  intro c hc
  simp [h c hc]

theorem nonWS_cons (c : Char) (l : Str) :
    nonWS (c :: l) = nonWS [c] ++ nonWS l := by
  simp only [nonWS, List.filter_cons]
  split
  · simp
  · simp

theorem nonWS_expandtabsGo (tabsize : Nat) :
    ∀ (l : Str) (col : Nat), nonWS (expandtabsGo tabsize col l) = nonWS l := by
  intro l
  induction l with
  | nil => intro col; simp [expandtabsGo]
  | cons c cs ih =>
    intro col
    simp only [expandtabsGo]
    split
    · rename_i hc
      have hrep : nonWS (List.replicate (tabsize - col % tabsize) ' ') = [] := by
        apply nonWS_allPyWS
        simp only [isAllPyWS, List.all_eq_true]
        intro x hx
        rw [List.eq_of_mem_replicate hx]
        decide
      rw [nonWS_append, hrep, ih, hc, nonWS_cons]
      have h1 : nonWS ['\t'] = [] := by decide
      simp [h1]
    · split
      · rw [nonWS_cons c (expandtabsGo tabsize 0 cs), ih, ← nonWS_cons c cs]
      · rw [nonWS_cons c (expandtabsGo tabsize (col + 1) cs), ih, ← nonWS_cons c cs]

theorem nonWS_expandtabs (l : Str) : nonWS (expandtabs l) = nonWS l :=
  nonWS_expandtabsGo 8 l 0

theorem hyphenRun_take : ∀ l : Str, l.take (hyphenRun l) = List.replicate (hyphenRun l) '-' := by
  intro l
  induction l with
  | nil => simp [hyphenRun]
  | cons c cs ih =>
    simp only [hyphenRun]
    split
    · rename_i hc
      simp [List.take_succ_cons, List.replicate_succ, hc, ih]
    · simp

theorem tokGo_flatten :
    ∀ (fuel : Nat) (prefixRev rest : Str), rest.length ≤ fuel →
      (tokGo prefixRev fuel rest).flatten = rest := by
  intro fuel
  induction fuel with
  | zero =>
    intro prefixRev rest h
    have : rest = [] := List.length_eq_zero.mp (Nat.le_zero.mp h)
    subst this
    simp [tokGo]
  | succ fuel ih =>
    intro prefixRev rest h
    match rest with
    | [] => simp [tokGo]
    | c :: cs =>
      simp only [tokGo]
      split
      · rename_i hws
        simp only [List.flatten_cons]
        rw [ih _ _ (le_trans (List.dropWhile_sublist _).length_le (by simpa using h))]
        simp [List.takeWhile_append_dropWhile]
      · split
        · rename_i hcond
          simp only [List.flatten_cons]
          have hk : 2 ≤ hyphenRun (c :: cs) := by
            simp only [emDashAhead, Bool.and_eq_true, decide_eq_true_eq] at hcond
            exact hcond.2.1
          rw [ih _ _ (by simp only [List.length_drop, List.length_cons]
                         simp only [List.length_cons] at h; omega)]
          rw [← hyphenRun_take (c :: cs), List.take_append_drop]
        · simp only [List.flatten_cons]
          rw [ih _ _ (le_trans (wordScan_snd_length_le _ cs [c]) (by simpa using h))]
          have := wordScan_append prefixRev cs [c]
          simpa using this

theorem tokGo_ne_nil :
    ∀ (fuel : Nat) (prefixRev rest : Str) (t : Str),
      t ∈ tokGo prefixRev fuel rest → t ≠ [] := by
  intro fuel
  induction fuel with
  | zero => intro prefixRev rest t ht; simp [tokGo] at ht
  | succ fuel ih =>
    intro prefixRev rest t ht
    match rest with
    | [] => simp [tokGo] at ht
    | c :: cs =>
      simp only [tokGo] at ht
      split at ht
      · rcases List.mem_cons.mp ht with h1 | h1
        · subst h1; simp
        · exact ih _ _ _ h1
      · split at ht
        · rename_i hcond
          rcases List.mem_cons.mp ht with h1 | h1
          · subst h1
            have hk : 2 ≤ hyphenRun (c :: cs) := by
              simp only [emDashAhead, Bool.and_eq_true, decide_eq_true_eq] at hcond
              exact hcond.2.1
            simp only [ne_eq, ← List.length_eq_zero]
            simp only [List.length_replicate]
            omega
          · exact ih _ _ _ h1
        · rcases List.mem_cons.mp ht with h1 | h1
          · subst h1
            exact wordScan_fst_ne_nil _ cs [c] (by simp)
          · exact ih _ _ _ h1

theorem dropLeadingWS_flatten_nonWS (b : Bool) (chunks : List Str) :
    nonWS ((dropLeadingWS b chunks).flatten) = nonWS (chunks.flatten) := by
  cases chunks with
  | nil => simp [dropLeadingWS]
  | cons c cs =>
    simp only [dropLeadingWS]
    split
    · rename_i h
      rw [Bool.and_eq_true] at h
      simp only [List.flatten_cons, nonWS_append]
      rw [nonWS_allPyWS h.2]
      simp
    · rfl

theorem dropTrailingWS_flatten_nonWS (cur : List Str) :
    nonWS ((dropTrailingWS cur).flatten) = nonWS (cur.flatten) := by
  unfold dropTrailingWS
  split
  · rename_i heq
    have : cur = [] := by simpa using congrArg List.reverse heq
    rw [this]
  · rename_i last restRev heq
    split
    · rename_i hws
      have hcur : cur = restRev.reverse ++ [last] := by
        have := congrArg List.reverse heq
        simpa using this
      rw [hcur]
      simp only [List.flatten_append, nonWS_append, List.flatten_cons,
        List.flatten_nil, List.append_nil]
      rw [nonWS_allPyWS hws]
      simp
    · rfl

theorem dropLeadingWS_subset (b : Bool) (chunks : List Str) :
    ∀ x ∈ dropLeadingWS b chunks, x ∈ chunks := by
  intro x hx
  cases chunks with
  | nil => simpa [dropLeadingWS] using hx
  | cons c cs =>
    simp only [dropLeadingWS] at hx
    split at hx
    · exact List.mem_cons_of_mem _ hx
    · exact hx

theorem dropTrailingWS_subset (cur : List Str) :
    ∀ x ∈ dropTrailingWS cur, x ∈ cur := by
  intro x hx
  unfold dropTrailingWS at hx
  split at hx
  · simpa using hx
  · rename_i last restRev heq
    split at hx
    · have hcur : cur = restRev.reverse ++ [last] := by
        have := congrArg List.reverse heq
        simpa using this
      rw [hcur]
      exact List.mem_append_left _ hx
    · exact hx

theorem wrapStep_snd_subset (b : Bool) (w : Nat) (chunks : List Str) :
    ∀ x ∈ (wrapStep b w chunks).2, x ∈ chunks := by
  intro x hx
  simp only [wrapStep] at hx
  have h1 : x ∈
      (longWordAdjust w (takeGreedy w 0 (dropLeadingWS b chunks)).1
        (takeGreedy w 0 (dropLeadingWS b chunks)).2).1 ++
      (longWordAdjust w (takeGreedy w 0 (dropLeadingWS b chunks)).1
        (takeGreedy w 0 (dropLeadingWS b chunks)).2).2 :=
    List.mem_append_right _ hx
  rw [longWordAdjust_append, takeGreedy_append] at h1
  exact dropLeadingWS_subset _ _ x h1

theorem wrapStep_line_ne_nil (b : Bool) (w : Nat) (chunks : List Str)
    (hne : ∀ x ∈ chunks, x ≠ []) :
    ∀ l, (wrapStep b w chunks).1 = some l → l ≠ [] := by
  intro l hl
  simp only [wrapStep] at hl
  split at hl
  · exact absurd hl (by simp)
  · rename_i hEmpty
    have hl2 : l =
        (dropTrailingWS (longWordAdjust w (takeGreedy w 0 (dropLeadingWS b chunks)).1
          (takeGreedy w 0 (dropLeadingWS b chunks)).2).1).flatten := by
      exact (Option.some_inj.mp hl).symm
    cases h3 : dropTrailingWS (longWordAdjust w (takeGreedy w 0 (dropLeadingWS b chunks)).1
        (takeGreedy w 0 (dropLeadingWS b chunks)).2).1 with
    | nil => rw [h3] at hEmpty; simp at hEmpty
    | cons y ys =>
      have hy : y ∈ chunks := by
        have hy1 : y ∈ dropTrailingWS (longWordAdjust w
            (takeGreedy w 0 (dropLeadingWS b chunks)).1
            (takeGreedy w 0 (dropLeadingWS b chunks)).2).1 := by
          rw [h3]; exact List.mem_cons_self y ys
        have hy2 := dropTrailingWS_subset _ y hy1
        have hy3 : y ∈
            (longWordAdjust w (takeGreedy w 0 (dropLeadingWS b chunks)).1
              (takeGreedy w 0 (dropLeadingWS b chunks)).2).1 ++
            (longWordAdjust w (takeGreedy w 0 (dropLeadingWS b chunks)).1
              (takeGreedy w 0 (dropLeadingWS b chunks)).2).2 :=
          List.mem_append_left _ hy2
        rw [longWordAdjust_append, takeGreedy_append] at hy3
        exact dropLeadingWS_subset _ _ y hy3
      rw [hl2, h3]
      simp only [List.flatten_cons]
      intro habs
      exact hne y hy (List.append_eq_nil.mp habs).1

theorem wrapStep_nonWS (b : Bool) (w : Nat) (chunks : List Str) :
    nonWS ((wrapStep b w chunks).1.getD []) ++ nonWS ((wrapStep b w chunks).2.flatten)
      = nonWS (chunks.flatten) := by
  have chain :
      nonWS ((dropTrailingWS (longWordAdjust w (takeGreedy w 0 (dropLeadingWS b chunks)).1
          (takeGreedy w 0 (dropLeadingWS b chunks)).2).1).flatten)
        ++ nonWS ((longWordAdjust w (takeGreedy w 0 (dropLeadingWS b chunks)).1
          (takeGreedy w 0 (dropLeadingWS b chunks)).2).2.flatten)
        = nonWS (chunks.flatten) := by
    rw [dropTrailingWS_flatten_nonWS, ← nonWS_append, ← List.flatten_append,
        longWordAdjust_append, takeGreedy_append, dropLeadingWS_flatten_nonWS]
  simp only [wrapStep]
  split
  · rename_i hEmpty
    have h0 : dropTrailingWS (longWordAdjust w (takeGreedy w 0 (dropLeadingWS b chunks)).1
        (takeGreedy w 0 (dropLeadingWS b chunks)).2).1 = [] := by
      simpa using hEmpty
    rw [h0] at chain
    simp only [List.flatten_nil] at chain
    simp only [Option.getD_none]
    rw [show nonWS [] = [] from rfl] at chain ⊢
    simpa using chain
  · simpa using chain

theorem wrapChunksGo_nonWS (w : Nat) :
    ∀ (fuel : Nat) (chunks lines : List Str), chunks.length ≤ fuel →
      nonWS ((wrapChunksGo w fuel lines chunks).flatten)
        = nonWS (lines.flatten) ++ nonWS (chunks.flatten) := by
  intro fuel
  induction fuel with
  | zero =>
    intro chunks lines h
    have : chunks = [] := List.length_eq_zero.mp (Nat.le_zero.mp h)
    subst this
    simp [wrapChunksGo, nonWS]
  | succ fuel ih =>
    intro chunks lines h
    match chunks with
    | [] => simp [wrapChunksGo, nonWS]
    | c :: cs =>
      simp only [wrapChunksGo]
      rw [ih _ _ (le_trans (wrapStep_snd_length (!lines.isEmpty) w c cs)
            (by simpa using Nat.le_of_succ_le_succ h))]
      rw [List.flatten_append, nonWS_append, List.append_assoc]
      congr 1
      have hline : nonWS (((wrapStep (!lines.isEmpty) w (c :: cs)).1.toList).flatten)
          = nonWS ((wrapStep (!lines.isEmpty) w (c :: cs)).1.getD []) := by
        cases (wrapStep (!lines.isEmpty) w (c :: cs)).1 with
        | none => simp
        | some l => simp
      rw [hline, wrapStep_nonWS]

theorem wrapChunksGo_ne_nil (w : Nat) :
    ∀ (fuel : Nat) (chunks lines : List Str),
      (∀ x ∈ chunks, x ≠ []) → (∀ l ∈ lines, l ≠ []) →
      ∀ l ∈ wrapChunksGo w fuel lines chunks, l ≠ [] := by
  intro fuel
  induction fuel with
  | zero =>
    intro chunks lines _ hl l hmem
    exact hl l (by simpa [wrapChunksGo] using hmem)
  | succ fuel ih =>
    intro chunks lines hc hl l hmem
    match chunks with
    | [] => exact hl l (by simpa [wrapChunksGo] using hmem)
    | c :: cs =>
      simp only [wrapChunksGo] at hmem
      refine ih _ _ ?_ ?_ l hmem
      · intro x hx
        exact hc x (wrapStep_snd_subset _ _ _ x hx)
      · intro x hx
        rcases List.mem_append.mp hx with h1 | h1
        · exact hl x h1
        · cases hopt : (wrapStep (!lines.isEmpty) w (c :: cs)).1 with
          | none => rw [hopt] at h1; simp at h1
          | some y =>
            rw [hopt] at h1
            simp only [Option.toList_some, List.mem_singleton] at h1
            subst h1
            exact wrapStep_line_ne_nil _ _ _ hc x hopt

theorem chunk_content_ne_nil (content : Str) (size : Nat) :
    ∀ ch ∈ chunk_content content size, ch ≠ [] := by
  intro ch hmem
  refine wrapChunksGo_ne_nil size _ _ _ ?_ ?_ ch hmem
  · intro x hx
    exact tokGo_ne_nil _ _ _ x hx
  · intro x hx
    simp at hx

theorem chunk_content_nonWS (content : Str) (size : Nat) :
    nonWS ((chunk_content content size).flatten) = nonWS content := by
  unfold chunk_content tokenizeTW
  rw [wrapChunksGo_nonWS size _ _ _ (le_refl _)]
  rw [tokGo_flatten _ _ _ (le_refl _), nonWS_expandtabs]
  simp [nonWS]

theorem chunk_content_nonempty (content : Str) (size : Nat)
    (h : nonWS content ≠ []) : chunk_content content size ≠ [] := by
  intro habs
  apply h
  rw [← chunk_content_nonWS content size, habs]
  rfl

/-- Claim C1 (amended).  For every input and chunk size (at least 1, the
domain on which CPython's `textwrap.wrap` is defined): the sequence
returned by `chunk_content` contains no empty chunk; concatenating the
chunks in order preserves exactly the input's non-whitespace characters in
order (full ordered coverage of content characters — but not of whitespace:
whitespace at chunk boundaries is dropped and tabs are expanded, so
character-for-character concatenation does not hold in general); and the
sequence is non-empty whenever the input contains at least one
non-whitespace character (not for every non-empty input: an all-whitespace
input yields an empty sequence). -/
theorem C1_chunker_amended (content : Str) (size : Nat) (hsize : 1 ≤ size) :
    (∀ ch ∈ chunk_content content size, ch ≠ []) ∧
    nonWS ((chunk_content content size).flatten) = nonWS content ∧
    (nonWS content ≠ [] → chunk_content content size ≠ []) :=
  ⟨chunk_content_ne_nil content size, chunk_content_nonWS content size,
    chunk_content_nonempty content size⟩

/-- Claim C1 (counterexample to the claim as stated).  The single-space
input is non-empty, yet `chunk_content` (at the default size 4000) returns
the empty sequence; and for the input `"a b"` at chunk-size boundary
`size + 1 = 3` with `size = 2`, the chunks are `["a", "b"]`, whose
concatenation `"ab"` does not reproduce the input's characters (the space
is dropped at the chunk boundary). -/
theorem C1_chunker_counterexample :
    chunk_content " ".toList 4000 = [] ∧
    chunk_content "a b".toList 2 = ["a".toList, "b".toList] ∧
    (chunk_content "a b".toList 2).flatten ≠ "a b".toList := by
  refine ⟨by decide, by decide, by decide⟩

/-- Witness for `C1_chunker_amended` at a concrete input. -/
theorem C1_chunker_witness :
    (∀ ch ∈ chunk_content "hello world this is a test".toList 10, ch ≠ []) ∧
    nonWS ((chunk_content "hello world this is a test".toList 10).flatten)
      = nonWS "hello world this is a test".toList ∧
    (nonWS "hello world this is a test".toList ≠ [] →
      chunk_content "hello world this is a test".toList 10 ≠ []) :=
  C1_chunker_amended "hello world this is a test".toList 10 (by decide)

/-! ## TreeFetcher (`utils/github_fetcher.py`)

The GitHub contents API is modelled as a capability
`api : Str → ApiResp` mapping a repository-relative path to the response
of `GET .../contents/path`, and the raw-file endpoint as
`ff : Str → Option Str` mapping a download URL to its text (`none` models
a failed `fetch_file`, which returns `None` after catching the error).
Entries are modelled as well-formed records carrying the `name`, `path`,
`type`, `sha` and `download_url` fields read by the code.  The recursion
is bounded by explicit fuel (the source recurses without any depth bound;
the spec flags this as an open question). -/

inductive EntryKind
  | file
  | dir
  | other
deriving DecidableEq

structure Entry where
  name : Str
  path : Str
  kind : EntryKind
  sha : Option Str
  download_url : Option Str
deriving DecidableEq

structure FileInfo where
  path : Str
  sha : Option Str
  download_url : Option Str
deriving DecidableEq

/-- The JSON shapes distinguished by `fetch_dir`: a dict with
`type == "file"`, a list of entries, any other JSON value, or a failed
request (`HTTPStatusError` or any other exception, both absorbed). -/
inductive ApiResp
  | file (fi : FileInfo)
  | dir (entries : List Entry)
  | malformed
  | err
deriving DecidableEq

structure FileData where
  sha : Option Str
  content : Str
deriving DecidableEq

/-- The binary/unsupported-suffix tuple of `fetch_dir`
(`github_fetcher.py` lines 63-67), verbatim including the `".DS_Store"`
entry (which can never match a lower-cased name). -/
def denySuffixes : List Str :=
  [".png".toList, ".jpg".toList, ".jpeg".toList, ".gif".toList, ".ico".toList,
   ".exe".toList, ".dll".toList, ".zip".toList, ".tar".toList, ".gz".toList,
   ".woff".toList, ".woff2".toList, ".ttf".toList, ".eot".toList, ".pdf".toList,
   ".doc".toList, ".docx".toList, ".xls".toList, ".xlsx".toList, ".ppt".toList,
   ".pptx".toList, ".DS_Store".toList, ".lock".toList, ".log".toList]

/-- `item["name"].lower().endswith((...))`: the deny-list check applied to
a file entry's name. -/
def denyCheck (name : Str) : Bool :=
  denySuffixes.any (fun suf => suf.isSuffixOf (name.map pyLowerChar))

/-- `fetch_dir` (`github_fetcher.py` lines 24-108).  Returns the mapping
(as an ordered association list, file results of the current level first,
then subdirectory results in entry order, matching the `dict.update`
insertion sequence) together with the trace of download URLs for which a
`fetch_file` task was created.  Every error path of the source returns an
empty mapping instead of raising. -/
def fetch_dir (api : Str → ApiResp) (ff : Str → Option Str) :
    Nat → Str → List (Str × FileData) × List Str
  | 0, _ => ([], [])
  | fuel + 1, path =>
    match api path with
    | .err => ([], [])
    | .malformed => ([], [])
    | .file fi =>
      match fi.download_url with
      | none => ([], [])
      | some url =>
        if url.isEmpty then ([], [])
        else
          match ff url with
          | some content =>
            (if content.isEmpty then [] else [(fi.path, ⟨fi.sha, content⟩)], [url])
          | none => ([], [url])
    | .dir entries =>
      let fileInfos : List (Str × Option Str × Str) := entries.filterMap (fun e =>
        match e.kind with
        | .file =>
          if denyCheck e.name then none
          else
            match e.download_url with
            | none => none
            | some url => if url.isEmpty then none else some (e.path, e.sha, url)
        | _ => none)
      let fileEntries : List (Str × FileData) := fileInfos.filterMap (fun pu =>
        match ff pu.2.2 with
        | some content =>
          if content.isEmpty then none else some (pu.1, ⟨pu.2.1, content⟩)
        | none => none)
      let dirResults : List (List (Str × FileData) × List Str) :=
        entries.filterMap (fun e =>
          match e.kind with
          | .dir => some (fetch_dir api ff fuel e.path)
          | _ => none)
      (fileEntries ++ (dirResults.map (fun r => r.1)).flatten,
       fileInfos.map (fun pu => pu.2.2) ++ (dirResults.map (fun r => r.2)).flatten)

/-- `fetch_files` (`github_fetcher.py` lines 111-136): runs the recursive
fetcher from the repository root (path `""`) and filters out entries whose
content is `None` — vacuous here because `fetch_dir` only inserts entries
with non-`None` content, which the embedding states by construction.  The
`except ... raise e` re-raise applies only to failures of the async runner
itself, which lie outside the modelled capabilities; every listing or
download failure is already absorbed inside `fetch_dir`, so `fetch_files`
returns a mapping (never a `FetchError`) for every capability behaviour. -/
def fetch_files (api : Str → ApiResp) (ff : Str → Option Str) (fuel : Nat) :
    List (Str × FileData) :=
  (fetch_dir api ff fuel []).1

theorem fetch_dir_err (api : Str → ApiResp) (ff : Str → Option Str) (fuel : Nat)
    (path : Str) (h : api path = .err) :
    fetch_dir api ff (fuel + 1) path = ([], []) := by
  simp [fetch_dir, h]

theorem fetch_dir_content_from_download (api : Str → ApiResp) (ff : Str → Option Str) :
    ∀ (fuel : Nat) (path : Str) (p : Str) (d : FileData),
      (p, d) ∈ (fetch_dir api ff fuel path).1 →
      ∃ url, ff url = some d.content ∧ d.content ≠ [] := by
  intro fuel
  induction fuel with
  | zero => intro path p d h; simp [fetch_dir] at h
  | succ fuel ih =>
    intro path p d h
    simp only [fetch_dir] at h
    cases hapi : api path with
    | err => simp only [hapi] at h; simp at h
    | malformed => simp only [hapi] at h; simp at h
    | file fi =>
      simp only [hapi] at h
      cases hurl : fi.download_url with
      | none => simp only [hurl] at h; simp at h
      | some url =>
        simp only [hurl] at h
        split at h
        · simp at h
        · cases hff : ff url with
          | none => simp only [hff] at h; simp at h
          | some content =>
            simp only [hff] at h
            split at h
            · simp at h
            · rename_i hne
              simp only [List.mem_singleton, Prod.mk.injEq] at h
              refine ⟨url, ?_, ?_⟩
              · rw [hff]
                rw [show d.content = content from by rw [h.2]]
              · rw [show d.content = content from by rw [h.2]]
                simpa [List.isEmpty_iff] using hne
    | dir entries =>
      simp only [hapi] at h
      simp only [List.mem_append] at h
      rcases h with h | h
      · simp only [List.mem_filterMap] at h
        obtain ⟨pu, _, hpu2⟩ := h
        cases hff : ff pu.2.2 with
        | none => simp only [hff] at hpu2; simp at hpu2
        | some content =>
          simp only [hff] at hpu2
          split at hpu2
          · simp at hpu2
          · rename_i hne
            simp only [Option.some_inj, Prod.mk.injEq] at hpu2
            refine ⟨pu.2.2, ?_, ?_⟩
            · rw [hff]
              rw [show d.content = content from by rw [← hpu2.2]]
            · rw [show d.content = content from by rw [← hpu2.2]]
              simpa [List.isEmpty_iff] using hne
      · simp only [List.mem_flatten, List.mem_map] at h
        obtain ⟨l, ⟨r, hr, hl⟩, hmem⟩ := h
        simp only [List.mem_filterMap] at hr
        obtain ⟨e, _, he⟩ := hr
        cases hk : e.kind with
        | file =>
          simp only [hk] at he
          exact Option.noConfusion he
        | other =>
          simp only [hk] at he
          exact Option.noConfusion he
        | dir =>
          simp only [hk, Option.some_inj] at he
          subst he
          subst hl
          exact ih e.path p d hmem

/-- Claim C4 (amended).  A failure to list any directory — including the
root — is absorbed inside `fetch_dir` and contributes an empty mapping;
in particular, when the root listing cannot be obtained, the top-level
`fetch_files` returns the empty mapping normally instead of failing with a
`FetchError` (the coordinator then reports the empty mapping as "No
readable files found"); and a failed file download yields no entry: every
entry of the returned mapping carries content obtained from a successful,
non-empty download. -/
theorem C4_fetch_error_amended (api : Str → ApiResp) (ff : Str → Option Str)
    (fuel : Nat) (path : Str) :
    (api path = .err → fetch_dir api ff (fuel + 1) path = ([], [])) ∧
    (api [] = .err → fetch_files api ff (fuel + 1) = []) ∧
    (∀ p d, (p, d) ∈ (fetch_dir api ff fuel path).1 →
      ∃ url, ff url = some d.content ∧ d.content ≠ []) := by
  refine ⟨fetch_dir_err api ff fuel path, ?_, fetch_dir_content_from_download api ff fuel path⟩
  intro h
  unfold fetch_files
  rw [fetch_dir_err api ff fuel [] h]

/-- Claim C4 (counterexample to the claim as stated).  With a capability
for which the root listing itself fails (every request errors), the
top-level fetch does not fail with a `FetchError`: it returns the empty
mapping as an ordinary value (and issues no download). -/
theorem C4_fetch_error_counterexample :
    fetch_dir (fun _ => ApiResp.err) (fun _ => none) 5 [] = ([], []) ∧
    fetch_files (fun _ => ApiResp.err) (fun _ => none) 5 = [] := by
  refine ⟨by decide, by decide⟩

/-- Witness for `C4_fetch_error_amended`: a concrete capability whose root
listing errors; the hypothesis of the second clause is discharged by
`rfl` and the conclusion evaluated. -/
theorem C4_fetch_error_witness :
    fetch_files (fun _ => ApiResp.err) (fun _ => some "x".toList) (3 + 1) = [] :=
  (C4_fetch_error_amended (fun _ => ApiResp.err) (fun _ => some "x".toList) 3 []).2.1 rfl

/-- Claim C9.  Every download call issued by the tree traversal (every URL
in the download trace) comes either from the direct single-file response
(the ref points at a file, which the code downloads without an extension
check) or from a directory file entry that passed the binary/deny-list
check.  Consequently no file entry whose name matches the deny-list
suffixes (images, archives, fonts, documents, lockfiles, logs) is ever
downloaded: such an entry is rejected before any `fetch_file` task is
created. -/
theorem C9_denylist_no_download (api : Str → ApiResp) (ff : Str → Option Str) :
    ∀ (fuel : Nat) (path : Str) (url : Str), url ∈ (fetch_dir api ff fuel path).2 →
      (∃ p fi, api p = ApiResp.file fi ∧ fi.download_url = some url) ∨
      (∃ p entries e, api p = ApiResp.dir entries ∧ e ∈ entries ∧
        e.kind = EntryKind.file ∧ denyCheck e.name = false ∧
        e.download_url = some url) := by
  intro fuel
  induction fuel with
  | zero => intro path url h; simp [fetch_dir] at h
  | succ fuel ih =>
    intro path url h
    simp only [fetch_dir] at h
    cases hapi : api path with
    | err => simp only [hapi] at h; simp at h
    | malformed => simp only [hapi] at h; simp at h
    | file fi =>
      simp only [hapi] at h
      cases hurl : fi.download_url with
      | none => simp only [hurl] at h; simp at h
      | some url0 =>
        simp only [hurl] at h
        split at h
        · simp at h
        · cases hff : ff url0 with
          | none =>
            simp only [hff, List.mem_singleton] at h
            subst h
            exact Or.inl ⟨path, fi, hapi, hurl⟩
          | some content =>
            simp only [hff, List.mem_singleton] at h
            subst h
            exact Or.inl ⟨path, fi, hapi, hurl⟩
    | dir entries =>
      simp only [hapi] at h
      simp only [List.mem_append] at h
      rcases h with h | h
      · simp only [List.mem_map, List.mem_filterMap] at h
        obtain ⟨pu, ⟨e, hmem, he⟩, hurl⟩ := h
        cases hk : e.kind with
        | dir =>
          simp only [hk] at he
          exact Option.noConfusion he
        | other =>
          simp only [hk] at he
          exact Option.noConfusion he
        | file =>
          simp only [hk] at he
          split at he
          · exact Option.noConfusion he
          · rename_i hdeny
            cases hdl : e.download_url with
            | none =>
              simp only [hdl] at he
              exact Option.noConfusion he
            | some url1 =>
              simp only [hdl] at he
              split at he
              · exact Option.noConfusion he
              · simp only [Option.some_inj] at he
                have h22 : pu.2.2 = url1 := by rw [← he]
                refine Or.inr ⟨path, entries, e, hapi, hmem, hk, by simpa using hdeny, ?_⟩
                rw [hdl, ← hurl, h22]
      · simp only [List.mem_flatten, List.mem_map] at h
        obtain ⟨l, ⟨r, hr, hl⟩, hmem⟩ := h
        simp only [List.mem_filterMap] at hr
        obtain ⟨e, _, he⟩ := hr
        cases hk : e.kind with
        | file =>
          simp only [hk] at he
          exact Option.noConfusion he
        | other =>
          simp only [hk] at he
          exact Option.noConfusion he
        | dir =>
          simp only [hk, Option.some_inj] at he
          subst he
          subst hl
          exact ih e.path url hmem

/-- A two-entry sample directory: a deny-listed image and a Python file. -/
def sampleApi : Str → ApiResp := fun p =>
  if p = [] then
    ApiResp.dir
      [⟨"b.png".toList, "b.png".toList, EntryKind.file, none, some "u1".toList⟩,
       ⟨"a.py".toList, "a.py".toList, EntryKind.file, none, some "u2".toList⟩]
  else ApiResp.err

def sampleFF : Str → Option Str := fun _ => some "print".toList

example : denyCheck "b.png".toList = true := by decide
example : denyCheck "a.py".toList = false := by decide
example : (fetch_dir sampleApi sampleFF 2 []).2 = ["u2".toList] := by decide
example : (fetch_dir sampleApi sampleFF 2 []).1 =
    [("a.py".toList, ⟨none, "print".toList⟩)] := by decide

/-- Witness for `C9_denylist_no_download`: in the sample tree exactly one
download is issued, and the theorem applied to it produces its
non-deny-listed origin. -/
theorem C9_denylist_witness :
    (∃ p fi, sampleApi p = ApiResp.file fi ∧ fi.download_url = some "u2".toList) ∨
    (∃ p entries e, sampleApi p = ApiResp.dir entries ∧ e ∈ entries ∧
      e.kind = EntryKind.file ∧ denyCheck e.name = false ∧
      e.download_url = some "u2".toList) :=
  C9_denylist_no_download sampleApi sampleFF 2 [] "u2".toList (by decide)

/-! ## SummaryEngine (`utils/summarizer.py`)

The Gemini completion capability for one chunk call is modelled as
`gen : Nat → GenOutcome`, mapping the attempt index to the outcome of
`model.generate_content_async` on that attempt (`ResourceExhausted`, any
other exception carrying a message, or success carrying the response
text).  The OpenAI fallback client is `oai : Option (Except Str Str)`:
`none` models an unset `OPENAI_API_KEY` (no client), `some (.error e)` a
raised exception with message `e`, `some (.ok t)` a successful completion
with content `t`. -/

inductive GenOutcome
  | ok (text : Str)
  | rateLimited
  | apiError (msg : Str)
deriving DecidableEq

def GenOutcome.isFailure : GenOutcome → Bool
  | .ok _ => false
  | .rateLimited => true
  | .apiError _ => true

/-- `summarize_with_openai_async` (`summarizer.py` lines 76-88): returns
the stripped completion text, or a textual error marker; it never
raises. -/
def summarize_with_openai_async (oai : Option (Except Str Str)) : Str :=
  match oai with
  | none => "[OpenAI Fallback Error] OpenAI API key not configured.".toList
  | some (.ok content) => pyStrip content
  | some (.error e) => "[OpenAI Fallback Error] ".toList ++ e

/-- Instrumented result of one gated chunk call: the returned text, how
many times the fallback provider was invoked, how many Gemini calls were
made, and the sleep durations (seconds) of the backoff ladder. -/
structure ChunkCallResult where
  result : Str
  fallbackCalls : Nat
  geminiCalls : Nat
  sleeps : List Nat
deriving DecidableEq

/-- The retry loop of `summarize_file_chunk_async` (`summarizer.py` lines
90-124): `for attempt in range(max_retries)`, with `delay` starting at
`initial_delay` and doubling after each failed attempt; on
`ResourceExhausted` the sleep is `delay + attempt * 2`, on any other error
it is `delay`; when `attempt + 1 == max_retries` the call falls back to
OpenAI instead of sleeping.  The final `return` after the loop (line 124)
is the `remaining = 0` case, reached only when the loop body never ran
(`max_retries = 0`) since each failing attempt either recurses or falls
back.  The loop counter is expressed structurally: `remaining` equals
`max_retries - attempt` at every call. -/
def chunkCallLoop (gen : Nat → GenOutcome) (oai : Option (Except Str Str))
    (maxRetries : Nat) : Nat → Nat → Nat → Nat → List Nat → ChunkCallResult
  | 0, _, _, calls, sleeps => ⟨summarize_with_openai_async oai, 1, calls, sleeps⟩
  | remaining + 1, attempt, delay, calls, sleeps =>
    match gen attempt with
    | .ok text => ⟨pyStrip text, 0, calls + 1, sleeps⟩
    | .rateLimited =>
      if attempt + 1 = maxRetries then
        ⟨summarize_with_openai_async oai, 1, calls + 1, sleeps⟩
      else
        chunkCallLoop gen oai maxRetries remaining (attempt + 1) (delay * 2) (calls + 1)
          (sleeps ++ [delay + attempt * 2])
    | .apiError _ =>
      if attempt + 1 = maxRetries then
        ⟨summarize_with_openai_async oai, 1, calls + 1, sleeps⟩
      else
        chunkCallLoop gen oai maxRetries remaining (attempt + 1) (delay * 2) (calls + 1)
          (sleeps ++ [delay])

/-- `summarize_file_chunk_async` with its default `max_retries=3`,
`initial_delay=5` made explicit. -/
def summarize_file_chunk_async (gen : Nat → GenOutcome) (oai : Option (Except Str Str))
    (maxRetries initialDelay : Nat) : ChunkCallResult :=
  chunkCallLoop gen oai maxRetries maxRetries 0 initialDelay 0 []

theorem chunkCallLoop_success (gen : Nat → GenOutcome) (oai : Option (Except Str Str))
    (maxRetries N : Nat) (s : Str) :
    ∀ (remaining attempt delay calls : Nat) (sleeps : List Nat),
      attempt + remaining = maxRetries → attempt ≤ N → N < maxRetries →
      (∀ k, attempt ≤ k → k < N → (gen k).isFailure = true) →
      gen N = .ok s →
      (chunkCallLoop gen oai maxRetries remaining attempt delay calls sleeps).result
          = pyStrip s ∧
      (chunkCallLoop gen oai maxRetries remaining attempt delay calls sleeps).fallbackCalls
          = 0 := by
  intro remaining
  induction remaining with
  | zero =>
    intro attempt delay calls sleeps hinv hle hlt _ _
    omega
  | succ remaining ih =>
    intro attempt delay calls sleeps hinv hle hlt hfail hsucc
    simp only [chunkCallLoop]
    cases hg : gen attempt with
    | ok text =>
      have hattempt : attempt = N := by
        by_contra hne
        have : (gen attempt).isFailure = true := hfail attempt (le_refl _) (by omega)
        rw [hg] at this
        simp [GenOutcome.isFailure] at this
      rw [hattempt] at hg
      rw [hsucc] at hg
      simp only [GenOutcome.ok.injEq] at hg
      rw [hg]
      exact ⟨rfl, rfl⟩
    | rateLimited =>
      have hne : attempt ≠ N := by
        intro heq
        rw [heq, hsucc] at hg
        exact GenOutcome.noConfusion hg
      have hif : ¬(attempt + 1 = maxRetries) := by omega
      simp only [if_neg hif]
      exact ih (attempt + 1) (delay * 2) (calls + 1) (sleeps ++ [delay + attempt * 2])
        (by omega) (by omega) hlt (fun k hk1 hk2 => hfail k (by omega) hk2) hsucc
    | apiError msg =>
      have hne : attempt ≠ N := by
        intro heq
        rw [heq, hsucc] at hg
        exact GenOutcome.noConfusion hg
      have hif : ¬(attempt + 1 = maxRetries) := by omega
      simp only [if_neg hif]
      exact ih (attempt + 1) (delay * 2) (calls + 1) (sleeps ++ [delay])
        (by omega) (by omega) hlt (fun k hk1 hk2 => hfail k (by omega) hk2) hsucc

theorem chunkCallLoop_fallback (gen : Nat → GenOutcome) (oai : Option (Except Str Str))
    (maxRetries : Nat) :
    ∀ (remaining attempt delay calls : Nat) (sleeps : List Nat),
      attempt + remaining = maxRetries →
      (∀ k, attempt ≤ k → k < maxRetries → (gen k).isFailure = true) →
      (chunkCallLoop gen oai maxRetries remaining attempt delay calls sleeps).result
          = summarize_with_openai_async oai ∧
      (chunkCallLoop gen oai maxRetries remaining attempt delay calls sleeps).fallbackCalls
          = 1 := by
  intro remaining
  induction remaining with
  | zero =>
    intro attempt delay calls sleeps _ _
    exact ⟨rfl, rfl⟩
  | succ remaining ih =>
    intro attempt delay calls sleeps hinv hfail
    simp only [chunkCallLoop]
    cases hg : gen attempt with
    | ok text =>
      have : (gen attempt).isFailure = true := hfail attempt (le_refl _) (by omega)
      rw [hg] at this
      simp [GenOutcome.isFailure] at this
    | rateLimited =>
      by_cases hif : attempt + 1 = maxRetries
      · simp only [if_pos hif]
        constructor <;> trivial
      · simp only [if_neg hif]
        exact ih (attempt + 1) (delay * 2) (calls + 1) (sleeps ++ [delay + attempt * 2])
          (by omega) (fun k hk1 hk2 => hfail k (by omega) hk2)
    | apiError msg =>
      by_cases hif : attempt + 1 = maxRetries
      · simp only [if_pos hif]
        constructor <;> trivial
      · simp only [if_neg hif]
        exact ih (attempt + 1) (delay * 2) (calls + 1) (sleeps ++ [delay])
          (by omega) (fun k hk1 hk2 => hfail k (by omega) hk2)

/-- Claim C6.  For a completion capability that fails on the first `N`
attempts and succeeds on attempt `N`: if `N < maxRetries`, the chunk call
returns the (stripped) success text and the fallback provider is never
invoked; if `N ≥ maxRetries`, the fallback provider is invoked exactly
once and its result — completion text or textual error marker, whatever
`summarize_with_openai_async` produces — is returned. -/
theorem C6_retry_fallback (gen : Nat → GenOutcome) (oai : Option (Except Str Str))
    (maxRetries initialDelay N : Nat) (s : Str)
    (hfail : ∀ k, k < N → (gen k).isFailure = true)
    (hsucc : gen N = .ok s) :
    (N < maxRetries →
      (summarize_file_chunk_async gen oai maxRetries initialDelay).result = pyStrip s ∧
      (summarize_file_chunk_async gen oai maxRetries initialDelay).fallbackCalls = 0) ∧
    (maxRetries ≤ N →
      (summarize_file_chunk_async gen oai maxRetries initialDelay).result
        = summarize_with_openai_async oai ∧
      (summarize_file_chunk_async gen oai maxRetries initialDelay).fallbackCalls = 1) := by
  constructor
  · intro hlt
    exact chunkCallLoop_success gen oai maxRetries N s maxRetries 0 initialDelay 0 []
      (by omega) (by omega) hlt (fun k _ hk2 => hfail k hk2) hsucc
  · intro hge
    exact chunkCallLoop_fallback gen oai maxRetries maxRetries 0 initialDelay 0 []
      (by omega) (fun k _ hk2 => hfail k (by omega))

/-- A stub capability failing twice (rate-limited), then succeeding. -/
def genStub : Nat → GenOutcome :=
  fun k => if k < 2 then GenOutcome.rateLimited else GenOutcome.ok "done".toList

def oaiStub : Option (Except Str Str) := some (Except.ok "fallback text".toList)

/-- Witness for `C6_retry_fallback`: with `N = 2` failures, the default
`maxRetries = 3` returns the success text with no fallback call, while
`maxRetries = 2` invokes the fallback exactly once. -/
theorem C6_retry_witness :
    ((summarize_file_chunk_async genStub oaiStub 3 5).result = pyStrip "done".toList ∧
     (summarize_file_chunk_async genStub oaiStub 3 5).fallbackCalls = 0) ∧
    ((summarize_file_chunk_async genStub oaiStub 2 5).result
        = summarize_with_openai_async oaiStub ∧
     (summarize_file_chunk_async genStub oaiStub 2 5).fallbackCalls = 1) := by
  constructor
  · exact (C6_retry_fallback genStub oaiStub 3 5 2 "done".toList
      (by decide) (by decide)).1 (by decide)
  · exact (C6_retry_fallback genStub oaiStub 2 5 2 "done".toList
      (by decide) (by decide)).2 (by decide)

example : (summarize_file_chunk_async genStub oaiStub 3 5).sleeps = [5, 12] := by decide
example : (summarize_file_chunk_async genStub oaiStub 3 5).geminiCalls = 3 := by decide

/-! ## ConcurrencyGate (`summarizer.py` lines 17-19, 99, 185)

`GEMINI_SEMAPHORE = asyncio.Semaphore(GEMINI_CONCURRENCY_LIMIT)` is a
module-level counting semaphore shared by the chunk-level call
(`summarize_file_chunk_async`, whose whole body runs inside
`async with GEMINI_SEMAPHORE`) and the batch-level call
(`summarize_project_batch_async`, likewise).  The transition system below
models `asyncio.Semaphore` semantics together with the `async with`
discipline: a gated call acquires one permit (blocking while none is
free, i.e. the acquire transition is enabled only when `avail ≠ 0`), runs
its body, and releases the permit on every exit path — success, error
text, or fallback — because `async with` releases on normal return and on
exception alike.  Tasks are tagged with their call kind to record that
both kinds share the single semaphore. -/

def GEMINI_CONCURRENCY_LIMIT : Nat := 15

inductive CallKind
  | chunk
  | projectBatch
deriving DecidableEq

/-- Exit paths of a gated call body. -/
inductive ExitPath
  | success
  | errorText
  | fallback
deriving DecidableEq

inductive GatePhase
  | notStarted
  | inGate
  | finished (outcome : ExitPath)
deriving DecidableEq

structure GateState where
  avail : Nat
  tasks : List (CallKind × GatePhase)
deriving DecidableEq

def GatePhase.isInGate : GatePhase → Bool
  | .inGate => true
  | _ => false

/-- Number of gated calls currently in flight. -/
def inFlight (s : GateState) : Nat :=
  s.tasks.countP (fun t => t.2.isInGate)

/-- Initial state of one run: all permits free, no call started.  `kinds`
lists every gated call (chunk-level and batch-level) the run will make. -/
def gateInit (kinds : List CallKind) : GateState :=
  ⟨GEMINI_CONCURRENCY_LIMIT, kinds.map (fun k => (k, GatePhase.notStarted))⟩

/-- One scheduler step: a waiting task acquires the semaphore (only
possible while a permit is free), or an in-flight task completes through
any exit path and releases its permit unconditionally. -/
inductive GateStep : GateState → GateState → Prop
  | acquire (s : GateState) (i : Nat) (k : CallKind) :
      s.avail ≠ 0 → s.tasks.get? i = some (k, GatePhase.notStarted) →
      GateStep s ⟨s.avail - 1, s.tasks.set i (k, GatePhase.inGate)⟩
  | release (s : GateState) (i : Nat) (k : CallKind) (o : ExitPath) :
      s.tasks.get? i = some (k, GatePhase.inGate) →
      GateStep s ⟨s.avail + 1, s.tasks.set i (k, GatePhase.finished o)⟩

/-- Reachability from the initial state. -/
def GateReachable (kinds : List CallKind) (s : GateState) : Prop :=
  Relation.ReflTransGen GateStep (gateInit kinds) s

theorem countP_set {α : Type} (p : α → Bool) :
    ∀ (l : List α) (i : Nat) (a b : α), l.get? i = some a →
      (l.set i b).countP p + (if p a then 1 else 0)
        = l.countP p + (if p b then 1 else 0) := by
  intro l
  induction l with
  | nil => intro i a b h; simp at h
  | cons x xs ih =>
    intro i a b h
    cases i with
    | zero =>
      simp only [List.get?_cons_zero, Option.some_inj] at h
      rw [← h]
      simp only [List.set_cons_zero, List.countP_cons]
      by_cases hpx : p x <;> by_cases hpb : p b <;> simp [hpx, hpb] <;> omega
    | succ j =>
      simp only [List.get?_cons_succ] at h
      simp only [List.set_cons_succ, List.countP_cons]
      have := ih j a b h
      omega

theorem isInGate_notStarted : GatePhase.notStarted.isInGate = false := rfl

theorem isInGate_inGate : GatePhase.inGate.isInGate = true := rfl

theorem isInGate_finished (o : ExitPath) : (GatePhase.finished o).isInGate = false := rfl

theorem gate_step_invariant {s t : GateState} (hstep : GateStep s t)
    (ih : s.avail + inFlight s = GEMINI_CONCURRENCY_LIMIT) :
    t.avail + inFlight t = GEMINI_CONCURRENCY_LIMIT := by
  cases hstep with
  | acquire i k havail hget =>
    have hc := countP_set (fun t : CallKind × GatePhase => t.2.isInGate)
      s.tasks i (k, GatePhase.notStarted) (k, GatePhase.inGate) hget
    simp only [isInGate_notStarted, isInGate_inGate] at hc
    simp at hc
    simp only [inFlight] at ih
    show s.avail - 1 + (s.tasks.set i (k, GatePhase.inGate)).countP
      (fun t => t.2.isInGate) = GEMINI_CONCURRENCY_LIMIT
    omega
  | release i k o hget =>
    have hc := countP_set (fun t : CallKind × GatePhase => t.2.isInGate)
      s.tasks i (k, GatePhase.inGate) (k, GatePhase.finished o) hget
    simp only [isInGate_inGate, isInGate_finished] at hc
    simp at hc
    simp only [inFlight] at ih
    show s.avail + 1 + (s.tasks.set i (k, GatePhase.finished o)).countP
      (fun t => t.2.isInGate) = GEMINI_CONCURRENCY_LIMIT
    omega

theorem gate_invariant (kinds : List CallKind) (s : GateState)
    (h : GateReachable kinds s) :
    s.avail + inFlight s = GEMINI_CONCURRENCY_LIMIT := by
  induction h with
  | refl =>
    simp only [gateInit, inFlight]
    have h0 : (kinds.map (fun k => (k, GatePhase.notStarted))).countP
        (fun t => t.2.isInGate) = 0 := by
      rw [List.countP_eq_zero]
      intro t ht
      simp only [List.mem_map] at ht
      obtain ⟨k, _, hk⟩ := ht
      rw [← hk]
      simp [GatePhase.isInGate]
    rw [h0]
    rfl
  | tail _ hstep ih => exact gate_step_invariant hstep ih

/-- Claim C7.  In every state reachable during a run — whatever
interleaving of acquisitions and releases of the shared
`GEMINI_SEMAPHORE` by chunk-level and batch-level calls occurs — the
number of in-flight gated model calls never exceeds the fixed gate
capacity `GEMINI_CONCURRENCY_LIMIT = 15`; each call acquires the shared
gate before calling the model (acquire is the only transition into
`inGate`) and releases it on every exit path (the release transition is
defined for every `ExitPath`). -/
theorem C7_gate_bound (kinds : List CallKind) (s : GateState)
    (h : GateReachable kinds s) :
    inFlight s ≤ GEMINI_CONCURRENCY_LIMIT := by
  have := gate_invariant kinds s h
  omega

/-- Witness for `C7_gate_bound`: a two-task run (one chunk call, one batch
call) after one acquisition. -/
theorem C7_gate_witness :
    inFlight ⟨GEMINI_CONCURRENCY_LIMIT - 1,
      [(CallKind.chunk, GatePhase.inGate), (CallKind.projectBatch, GatePhase.notStarted)]⟩
      ≤ GEMINI_CONCURRENCY_LIMIT := by
  apply C7_gate_bound [CallKind.chunk, CallKind.projectBatch]
  have hstep : GateStep (gateInit [CallKind.chunk, CallKind.projectBatch])
      ⟨GEMINI_CONCURRENCY_LIMIT - 1,
        [(CallKind.chunk, GatePhase.inGate), (CallKind.projectBatch, GatePhase.notStarted)]⟩ := by
    have h :=
      GateStep.acquire (gateInit [CallKind.chunk, CallKind.projectBatch]) 0 CallKind.chunk
        (by decide) (by decide)
    simpa [gateInit, GEMINI_CONCURRENCY_LIMIT] using h
  exact Relation.ReflTransGen.single hstep

/-! ## StagingStore (`summarizer.py` lines 14, 163-167, 196-316)

The staging area is modelled as an association list of staged files plus
the written final reports.  `os.remove` over the list of staging locations
has the net effect of removing every listed path (a duplicate's second
removal raises `FileNotFoundError`, which the code catches and only
counts); the cleanup counter is logged, not returned, and is not
modelled. -/

def TEMP_SUMMARY_DIR : Str := "temp_summaries".toList

/-- `safe_filename = path.replace('/', '_').replace('\\', '_')`
(`summarizer.py` line 166). -/
def safe_filename (path : Str) : Str :=
  (path.map (fun c => if c = '/' then '_' else c)).map
    (fun c => if c = '\\' then '_' else c)

/-- `temp_filepath = os.path.join(TEMP_SUMMARY_DIR, f"...")` on a POSIX
system (`summarizer.py` line 167). -/
def stagingLocation (path : Str) : Str :=
  TEMP_SUMMARY_DIR ++ "/".toList ++ safe_filename path ++ ".md".toList

structure FS where
  staged : List (Str × Str)
  reports : List (Str × Str)
deriving DecidableEq

def FS.read? (fs : FS) (p : Str) : Option Str :=
  (fs.staged.find? (fun q => q.1 == p)).map (fun q => q.2)

def FS.put (fs : FS) (p c : Str) : FS :=
  ⟨(p, c) :: fs.staged.filter (fun q => !(q.1 == p)), fs.reports⟩

def FS.removeAll (fs : FS) (ps : List Str) : FS :=
  ⟨fs.staged.filter (fun q => !(ps.contains q.1)), fs.reports⟩

/-- The combined effect of the two separator replacements on one
character. -/
def sepMap (c : Char) : Char :=
  if c = '/' then '_' else if c = '\\' then '_' else c

theorem safe_filename_eq_map (path : Str) : safe_filename path = path.map sepMap := by
  unfold safe_filename
  rw [List.map_map]
  apply List.map_congr_left
  intro c _
  simp only [Function.comp_apply, sepMap]
  by_cases h1 : c = '/'
  · simp [h1]
  · by_cases h2 : c = '\\'
    · simp [h1, h2]
    · simp [h1, h2]

theorem sepMap_inj {a b : Char} (ha1 : a ≠ '_') (ha2 : a ≠ '\\')
    (hb1 : b ≠ '_') (hb2 : b ≠ '\\') (h : sepMap a = sepMap b) : a = b := by
  unfold sepMap at h
  by_cases hA : a = '/'
  · by_cases hB : b = '/'
    · rw [hA, hB]
    · rw [if_pos hA, if_neg hB, if_neg hb2] at h
      exact absurd h.symm hb1
  · by_cases hB : b = '/'
    · rw [if_neg hA, if_neg ha2, if_pos hB] at h
      exact absurd h ha1
    · rw [if_neg hA, if_neg ha2, if_neg hB, if_neg hb2] at h
      exact h

theorem map_sepMap_inj :
    ∀ (p q : Str), (∀ c ∈ p, c ≠ '_' ∧ c ≠ '\\') → (∀ c ∈ q, c ≠ '_' ∧ c ≠ '\\') →
      p.map sepMap = q.map sepMap → p = q := by
  intro p
  induction p with
  | nil =>
    intro q _ _ h
    cases q with
    | nil => rfl
    | cons y ys => simp at h
  | cons x xs ih =>
    intro q hp hq h
    cases q with
    | nil => simp at h
    | cons y ys =>
      simp only [List.map_cons, List.cons.injEq] at h
      have hx := hp x (List.mem_cons_self _ _)
      have hy := hq y (List.mem_cons_self _ _)
      have hxy : x = y := sepMap_inj hx.1 hx.2 hy.1 hy.2 h.1
      rw [hxy, ih ys (fun c hc => hp c (List.mem_cons_of_mem _ hc))
        (fun c hc => hq c (List.mem_cons_of_mem _ hc)) h.2]

/-- Claim C8 (amended).  The path-to-staging-location mapping is a
deterministic function, and it is injective over paths that contain
neither `'_'` nor `'\\'` (e.g. POSIX paths of alphanumeric-and-dot
segments separated by `'/'`); it is not injective over the full expected
path alphabet, since `'_'` is a legal and common path character and
`'/'`, `'\\'` and `'_'` all map to `'_'`. -/
theorem C8_staging_injective_amended (p q : Str)
    (hp1 : Char.ofNat 95 ∉ p) (hp2 : Char.ofNat 92 ∉ p)
    (hq1 : Char.ofNat 95 ∉ q) (hq2 : Char.ofNat 92 ∉ q)
    (h : stagingLocation p = stagingLocation q) : p = q := by
  unfold stagingLocation at h
  have h3 : safe_filename p = safe_filename q :=
    List.append_cancel_left (List.append_cancel_right h)
  rw [safe_filename_eq_map, safe_filename_eq_map] at h3
  refine map_sepMap_inj p q ?_ ?_ h3
  · intro c hc
    constructor
    · intro habs; rw [habs] at hc; exact hp1 (by simpa using hc)
    · intro habs; rw [habs] at hc; exact hp2 (by simpa using hc)
  · intro c hc
    constructor
    · intro habs; rw [habs] at hc; exact hq1 (by simpa using hc)
    · intro habs; rw [habs] at hc; exact hq2 (by simpa using hc)

/-- Claim C8 (counterexample to the claim as stated).  The distinct paths
`"a/b"` and `"a_b"` — both over the expected path alphabet, since
underscores are common in file names — map to the same staging
location. -/
theorem C8_staging_counterexample :
    stagingLocation "a/b".toList = stagingLocation "a_b".toList ∧
    "a/b".toList ≠ "a_b".toList := by
  refine ⟨by decide, by decide⟩

/-- Witness for `C8_staging_injective_amended` on concrete
underscore-free and backslash-free paths. -/
theorem C8_staging_witness : "src/a.py".toList = "src/a.py".toList :=
  C8_staging_injective_amended "src/a.py".toList "src/a.py".toList
    (by decide) (by decide) (by decide) (by decide) rfl

example : stagingLocation "a/b".toList = "temp_summaries/a_b.md".toList := by decide

/-! ## Per-file and project-level summarization (`summarizer.py`)

The fixed English instruction text of the prompt templates is condensed to
short placeholders; every dynamic component the code interpolates (path,
chunk index and count, chunk text, file names, snippet joins, counts) is
embedded faithfully.  The prompts are consumed opaquely by the completion
capabilities, so no claim depends on the fixed text. -/

def GEMINI_FILE_NOT_INIT : Str := "[ERROR] Gemini file model not initialized.".toList

def GEMINI_PROJECT_NOT_INIT : Str :=
  "[ERROR] Gemini project model not initialized.".toList

def BATCH_SIZE : Nat := 5

/-- `summarize_project_batch_async` (`summarizer.py` lines 180-194): one
gated model call; on `ResourceExhausted` fall back to OpenAI once, on any
other error return a textual error marker. -/
def summarize_project_batch_async (g : GenOutcome) (oai : Option (Except Str Str)) : Str :=
  match g with
  | .ok t => pyStrip t
  | .rateLimited => summarize_with_openai_async oai
  | .apiError msg => "Error summarizing project batch: ".toList ++ msg

/-- The per-chunk prompt of `summarize_file` (lines 139-154), condensed
fixed text with faithful dynamic parts. -/
def chunkPrompt (path : Str) (i n : Nat) (chunk : Str) : Str :=
  "You are an expert software engineer. Analyze this code chunk. File: ".toList
    ++ path ++ " (chunk ".toList ++ natStr i ++ "/".toList ++ natStr n
    ++ ") Content: ".toList ++ chunk

/-- `os.path.basename(path).replace('_', '/').replace('.md', '')`
(lines 225, 262). -/
def origFilename (path : Str) : Str :=
  replaceSubstr ".md".toList [] (replaceSubstr "_".toList "/".toList (basename path))

/-- One overview snippet (line 227): file header, first 1000 characters of
the staged summary, trailing ellipsis. -/
def overviewSnippet (path content : Str) : Str :=
  "**File: ".toList ++ origFilename path ++ "**\n".toList
    ++ content.take 1000 ++ "...".toList

/-- The executive-summary prompt (lines 231-243), condensed fixed text. -/
def overviewPrompt (projectName : Str) (snippets : List Str) (total : Nat) : Str :=
  "You are a 10x Staff Software Architect. Executive summary for ".toList
    ++ projectName ++ ". Snippets: ".toList
    ++ List.intercalate "\n\n".toList snippets
    ++ "\n(and ".toList ++ natStr (total - snippets.length) ++ " more files)".toList

/-- One file block of a detail batch (lines 258-267): the staged summary
with a header, or an error line if the staged file cannot be read. -/
def batchFileBlock (fs : FS) (path : Str) : Str :=
  match fs.read? path with
  | some content => "--- File: ".toList ++ origFilename path ++ " ---\n".toList ++ content
  | none => "--- File: ".toList ++ path ++ " (Error reading) ---".toList

/-- The structured-analysis prompt of one batch (lines 273-287), condensed
fixed text. -/
def batchPrompt (n : Nat) (joined : Str) : Str :=
  "You are an expert software architect. Here are ".toList ++ natStr n
    ++ " file summaries from the project: ".toList ++ joined
    ++ " Produce a detailed, structured analysis of these files only.".toList

/-- `range(0, len(summary_paths), BATCH_SIZE)` slicing (line 252-253). -/
def batchesOf (n : Nat) : Nat → List Str → List (List Str)
  | 0, _ => []
  | _ + 1, [] => []
  | fuel + 1, l => l.take n :: batchesOf n fuel (l.drop n)

/-- `summarize_file` (`summarizer.py` lines 126-178).  `chunkGen` maps a
prompt to the per-attempt Gemini outcomes of its chunk call,
`stageWriteOk` tells whether the staged write at a location succeeds.
Returns the value `summarize_file` returns — the staging location on
success, the not-initialized marker string when the Gemini file model is
missing, `none` (Python `None`) when the staged write fails — together
with the updated staging area. -/
def summarize_file (mfInit : Bool) (chunkGen : Str → Nat → GenOutcome)
    (oai : Option (Except Str Str)) (stageWriteOk : Str → Bool)
    (path content : Str) (fs : FS) : Option Str × FS :=
  if !mfInit then (some GEMINI_FILE_NOT_INIT, fs)
  else
    let chunks := chunk_content content CHUNK_SIZE
    let n := chunks.length
    let chunk_summaries := chunks.enum.map (fun ic =>
      (summarize_file_chunk_async (chunkGen (chunkPrompt path (ic.1 + 1) n ic.2))
        oai 3 5).result)
    let full_summary_content := List.intercalate "\n\n---\n\n".toList chunk_summaries
    let temp_filepath := stagingLocation path
    if stageWriteOk temp_filepath then
      (some temp_filepath, fs.put temp_filepath full_summary_content)
    else
      (none, fs)

def pyIsAlnum (c : Char) : Bool := c.isAlphanum

/-- `summarize_project` (`summarizer.py` lines 196-316).  `projLLM` maps a
prompt to the outcome of its single (gated) model call; `writeOk` tells
whether the final report write succeeds and `writeErr` is the exception
message when it fails; `tsFile` and `tsDisp` are the two
`datetime.now()` renderings.  Returns the function's return value — the
report filename on success, an error-marker string on failure — and the
file-system state: on successful write the report is added and every
input staging location is removed (best-effort `os.remove` loop, failures
only counted); on write failure, and in the model-not-initialized path,
nothing is written and nothing is deleted. -/
def summarize_project (summary_paths : List Str) (project_name : Str)
    (mpInit : Bool) (projLLM : Str → GenOutcome) (oai : Option (Except Str Str))
    (writeOk : Bool) (writeErr : Str) (tsFile tsDisp : Str) (fs : FS) : Str × FS :=
  if !mpInit then (GEMINI_PROJECT_NOT_INIT, fs)
  else
    let safe0 := pyRstrip (project_name.filter
      (fun c => pyIsAlnum c || c = '-' || c = '_'))
    let safe_project_name := if safe0.isEmpty then "AI_Project_Summary".toList else safe0
    let report_filename := safe_project_name ++ "_summary_".toList ++ tsFile ++ ".md".toList
    let overview_snippets := (summary_paths.take 3).filterMap (fun p =>
      match fs.read? p with
      | some content => some (overviewSnippet p content)
      | none => none)
    let overview := summarize_project_batch_async
      (projLLM (overviewPrompt project_name overview_snippets summary_paths.length)) oai
    let header := "# ".toList ++ project_name
      ++ " - AI Code Analysis\n\n**Generated on:** ".toList ++ tsDisp
      ++ "\n\n## 1. Project Overview\n\n".toList
    let mid := header ++ overview ++ "\n\n## 2. Detailed File Analysis\n\n".toList
    let batches := batchesOf BATCH_SIZE summary_paths.length summary_paths
    let batch_results := batches.map (fun bp =>
      summarize_project_batch_async
        (projLLM (batchPrompt bp.length
          (List.intercalate "\n\n".toList (bp.map (batchFileBlock fs))))) oai)
    let markdown_content := mid ++ List.intercalate "\n\n---\n\n".toList batch_results
    if writeOk then
      (report_filename,
       ⟨(fs.removeAll summary_paths).staged, (report_filename, markdown_content) :: fs.reports⟩)
    else
      ("[ERROR] Failed to write final summary file: ".toList ++ writeErr, fs)

/-! ## PipelineCoordinator, batch mode (`main.py`)

`analyze_repo` after URL validation: fetch (already run in a thread; its
outcome is passed in as an `Except`), the extension/content filter, the
concurrent per-file summarization (modelled sequentially — results are
collected in task order by `asyncio.gather`, and no claim depends on the
interleaving of staging writes), the truthiness filter, and aggregation.
The per-file call `summarize_file(path, file_data["content"],
file_data["sha"])` (`main.py` line 88) passes three positional arguments
to `summarize_file(path, content)` (`summarizer.py` line 126), which
accepts exactly two; Python raises `TypeError` at the call, before the
callee body runs.  `pyCallCheck` embeds that positional-call protocol. -/

/-- `TEXT_EXTENSIONS` (`main.py` lines 23-28). -/
def TEXT_EXTENSIONS : List Str :=
  [".py".toList, ".js".toList, ".ts".toList, ".jsx".toList, ".tsx".toList,
   ".json".toList, ".md".toList, ".yaml".toList, ".yml".toList, ".html".toList,
   ".css".toList, ".scss".toList, ".go".toList, ".java".toList, ".cs".toList,
   ".php".toList, ".rb".toList, ".rs".toList, ".swift".toList,
   "dockerfile".toList, ".env.example".toList, ".gitignore".toList,
   ".toml".toList, ".ini".toList, ".xml".toList, ".sh".toList, ".sql".toList,
   ".properties".toList, ".gradle".toList, "requirements.txt".toList,
   "package.json".toList, "composer.json".toList]

/-- The filter of `main.py` lines 73-76: extension allow-list and
non-empty stripped content. -/
def passesFilter (p : Str) (d : FileData) : Bool :=
  TEXT_EXTENSIONS.any (fun ext => ext.isSuffixOf p) && !(pyStrip d.content).isEmpty

inductive PyCallErr
  | typeError
deriving DecidableEq

/-- Python's positional-call protocol: calling a function declared with
`params` parameters with `nargs` positional arguments raises `TypeError`
unless the counts match. -/
def pyCallCheck (params nargs : Nat) : Except PyCallErr Unit :=
  if nargs = params then Except.ok () else Except.error PyCallErr.typeError

/-- Parameter count of `def summarize_file(path, content)`
(`summarizer.py` line 126). -/
def summarize_file_params : Nat := 2

/-- Positional argument count of the coordinator's call
`summarize_file(path, file_data["content"], file_data["sha"])`
(`main.py` lines 88 and 175). -/
def coordinator_call_nargs : Nat := 3

/-- The helper `summarize_path` of `analyze_repo` (`main.py` lines
84-91): it awaits `summarize_file(path, content, sha)` inside
`try ... except Exception: return None`, so the `TypeError` from the
arity mismatch is absorbed into `None`; the two-argument call in the
`ok` branch is the call as declared, kept for the (unreachable) matching
case. -/
def summarize_path (mfInit : Bool) (chunkGen : Str → Nat → GenOutcome)
    (oai : Option (Except Str Str)) (stageWriteOk : Str → Bool)
    (fs : FS) (p : Str) (d : FileData) : Option Str × FS :=
  match pyCallCheck summarize_file_params coordinator_call_nargs with
  | .error _ => (none, fs)
  | .ok _ => summarize_file mfInit chunkGen oai stageWriteOk p d.content fs

/-- The `asyncio.gather` over `summarize_path` tasks (`main.py` lines
93-96), results in task order. -/
def runSummaries (mfInit : Bool) (chunkGen : Str → Nat → GenOutcome)
    (oai : Option (Except Str Str)) (stageWriteOk : Str → Bool) :
    FS → List (Str × FileData) → List (Option Str) × FS
  | fs, [] => ([], fs)
  | fs, (p, d) :: rest =>
    let r := summarize_path mfInit chunkGen oai stageWriteOk fs p d
    let rs := runSummaries mfInit chunkGen oai stageWriteOk r.2 rest
    (r.1 :: rs.1, rs.2)

/-- `[path for path in summary_paths if path]` (`main.py` line 99):
Python truthiness keeps any non-`None`, non-empty string. -/
def truthyFilter (l : List (Option Str)) : List Str :=
  l.filterMap (fun o =>
    match o with
    | some s => if s.isEmpty then none else some s
    | none => none)

structure HTTPError where
  code : Nat
  detail : Str
deriving DecidableEq

structure BatchResult where
  repo : Str
  total_files_fetched : Nat
  files_analyzed : Nat
  project_summary_file : Str
deriving DecidableEq

/-- The aggregation step of batch mode (`main.py` lines 104-116):
`summarize_project` is awaited inside `try ... except`, but its
write-failure path returns an error-marker string instead of raising, so
in the modelled capability space the `except` branch is unreachable and
the endpoint always wraps whatever string comes back — report filename or
error marker — in a success result. -/
def batch_finalize (owner repo : Str) (totalFetched : Nat) (valid : List Str)
    (mpInit : Bool) (projLLM : Str → GenOutcome) (oai : Option (Except Str Str))
    (writeOk : Bool) (writeErr tsFile tsDisp : Str) (fs : FS) :
    Except HTTPError BatchResult × FS :=
  let r := summarize_project valid repo mpInit projLLM oai writeOk writeErr tsFile tsDisp fs
  (Except.ok ⟨owner ++ "/".toList ++ repo, totalFetched, valid.length, r.1⟩, r.2)

/-- `analyze_repo` after URL validation (`main.py` lines 60-116). -/
def analyze_repo (owner repo : Str)
    (fetchOutcome : Except Str (List (Str × FileData)))
    (mfInit mpInit : Bool) (chunkGen : Str → Nat → GenOutcome)
    (projLLM : Str → GenOutcome) (oai : Option (Except Str Str))
    (stageWriteOk : Str → Bool) (reportWriteOk : Bool)
    (reportWriteErr tsFile tsDisp : Str) (fs : FS) :
    Except HTTPError BatchResult × FS :=
  match fetchOutcome with
  | .error e => (Except.error ⟨500, "Error fetching files: ".toList ++ e⟩, fs)
  | .ok files =>
    if files.isEmpty then
      (Except.error ⟨404, "No readable files found.".toList⟩, fs)
    else
      let files_to_process := files.filter (fun pd => passesFilter pd.1 pd.2)
      if files_to_process.isEmpty then
        (Except.error ⟨404, "No text files found to analyze.".toList⟩, fs)
      else
        let rs := runSummaries mfInit chunkGen oai stageWriteOk fs files_to_process
        let valid_summary_paths := truthyFilter rs.1
        if valid_summary_paths.isEmpty then
          (Except.error ⟨500, "All file summaries failed.".toList⟩, rs.2)
        else
          batch_finalize owner repo files.length valid_summary_paths mpInit projLLM oai
            reportWriteOk reportWriteErr tsFile tsDisp rs.2

theorem summarize_path_none (mfInit : Bool) (chunkGen : Str → Nat → GenOutcome)
    (oai : Option (Except Str Str)) (stageWriteOk : Str → Bool)
    (fs : FS) (p : Str) (d : FileData) :
    summarize_path mfInit chunkGen oai stageWriteOk fs p d = (none, fs) := rfl

theorem runSummaries_all_none (mfInit : Bool) (chunkGen : Str → Nat → GenOutcome)
    (oai : Option (Except Str Str)) (stageWriteOk : Str → Bool) :
    ∀ (l : List (Str × FileData)) (fs : FS),
      runSummaries mfInit chunkGen oai stageWriteOk fs l
        = (l.map (fun _ => none), fs) := by
  intro l
  induction l with
  | nil => intro fs; rfl
  | cons pd rest ih =>
    intro fs
    cases pd with
    | mk p d =>
      simp only [runSummaries, summarize_path_none, ih]
      rfl

theorem truthyFilter_map_none {α : Type} (l : List α) :
    truthyFilter (l.map (fun _ => none)) = [] := by
  induction l with
  | nil => rfl
  | cons a as ih => simpa [truthyFilter] using ih

theorem analyze_repo_all_summaries_fail (owner repo : Str)
    (files : List (Str × FileData)) (mfInit mpInit : Bool)
    (chunkGen : Str → Nat → GenOutcome) (projLLM : Str → GenOutcome)
    (oai : Option (Except Str Str)) (stageWriteOk : Str → Bool)
    (reportWriteOk : Bool) (reportWriteErr tsFile tsDisp : Str) (fs : FS)
    (h : files.filter (fun pd => passesFilter pd.1 pd.2) ≠ []) :
    analyze_repo owner repo (Except.ok files) mfInit mpInit chunkGen projLLM oai
        stageWriteOk reportWriteOk reportWriteErr tsFile tsDisp fs
      = (Except.error ⟨500, "All file summaries failed.".toList⟩, fs) := by
  have h1 : files.isEmpty = false := by
    cases files with
    | nil =>
      exfalso
      exact h rfl
    | cons a as => rfl
  have h2 : (files.filter (fun pd => passesFilter pd.1 pd.2)).isEmpty = false := by
    cases hf : files.filter (fun pd => passesFilter pd.1 pd.2) with
    | nil => exact absurd hf h
    | cons a as => rfl
  simp only [analyze_repo, h1, h2, Bool.false_eq_true, if_false,
    runSummaries_all_none, truthyFilter_map_none]
  rfl

deriving instance DecidableEq for Except

/-- Claim C2.  The coordinator's per-file call passes three positional
arguments to the two-parameter `summarize_file`, so every per-file
summarization raises `TypeError`, is absorbed as a `None` result by
`summarize_path`, and whenever at least one file passes the filter the
batch endpoint terminates with the 500 error "All file summaries failed."
without ever reaching aggregation. -/
theorem C2_arity_mismatch (owner repo : Str) (files : List (Str × FileData))
    (mfInit mpInit : Bool) (chunkGen : Str → Nat → GenOutcome)
    (projLLM : Str → GenOutcome) (oai : Option (Except Str Str))
    (stageWriteOk : Str → Bool) (reportWriteOk : Bool)
    (reportWriteErr tsFile tsDisp : Str) (fs : FS)
    (h : files.filter (fun pd => passesFilter pd.1 pd.2) ≠ []) :
    summarize_file_params = 2 ∧ coordinator_call_nargs = 3 ∧
    coordinator_call_nargs ≠ summarize_file_params ∧
    (∀ fs2 p d, summarize_path mfInit chunkGen oai stageWriteOk fs2 p d = (none, fs2)) ∧
    analyze_repo owner repo (Except.ok files) mfInit mpInit chunkGen projLLM oai
        stageWriteOk reportWriteOk reportWriteErr tsFile tsDisp fs
      = (Except.error ⟨500, "All file summaries failed.".toList⟩, fs) :=
  ⟨rfl, rfl, by decide,
   fun fs2 p d => summarize_path_none mfInit chunkGen oai stageWriteOk fs2 p d,
   analyze_repo_all_summaries_fail owner repo files mfInit mpInit chunkGen projLLM oai
     stageWriteOk reportWriteOk reportWriteErr tsFile tsDisp fs h⟩

/-- Witness for `C2_arity_mismatch`: a repository with one qualifying
Python file and all capabilities healthy still fails with "All file
summaries failed." -/
theorem C2_arity_witness :
    summarize_file_params = 2 ∧ coordinator_call_nargs = 3 ∧
    coordinator_call_nargs ≠ summarize_file_params ∧
    (∀ fs2 p d, summarize_path true (fun _ _ => GenOutcome.ok "s".toList) none
        (fun _ => true) fs2 p d = (none, fs2)) ∧
    analyze_repo "o".toList "r".toList
        (Except.ok [("a.py".toList, ⟨none, "x = 1".toList⟩)])
        true true (fun _ _ => GenOutcome.ok "s".toList) (fun _ => GenOutcome.ok "s".toList)
        none (fun _ => true) true "e".toList "t1".toList "t2".toList ⟨[], []⟩
      = (Except.error ⟨500, "All file summaries failed.".toList⟩, ⟨[], []⟩) :=
  C2_arity_mismatch "o".toList "r".toList [("a.py".toList, ⟨none, "x = 1".toList⟩)]
    true true (fun _ _ => GenOutcome.ok "s".toList) (fun _ => GenOutcome.ok "s".toList)
    none (fun _ => true) true "e".toList "t1".toList "t2".toList ⟨[], []⟩ (by decide)

/-- Claim C3.  In `summarize_project`, staged artifacts are deleted if and
only if the final report write succeeds: on successful write the report is
recorded and every input staging location is removed from the staging
area (best-effort; failures of individual removals are only counted, not
escalated, and are not part of the return value); on write failure the
file system is left exactly as it was and the function returns an
error-marker string; when the project model is not initialized nothing is
read, written or deleted. -/
theorem C3_cleanup_iff_write (summary_paths : List Str) (project_name : Str)
    (mpInit : Bool) (projLLM : Str → GenOutcome) (oai : Option (Except Str Str))
    (writeOk : Bool) (writeErr tsFile tsDisp : Str) (fs : FS) :
    (mpInit = true → writeOk = true →
      (summarize_project summary_paths project_name mpInit projLLM oai writeOk writeErr
          tsFile tsDisp fs).2.staged
        = fs.staged.filter (fun q => !(summary_paths.contains q.1)) ∧
      ∃ rep, (summarize_project summary_paths project_name mpInit projLLM oai writeOk
          writeErr tsFile tsDisp fs).2.reports = rep :: fs.reports) ∧
    (mpInit = true → writeOk = false →
      (summarize_project summary_paths project_name mpInit projLLM oai writeOk writeErr
          tsFile tsDisp fs).2 = fs ∧
      "[ERROR]".toList.isPrefixOf
        (summarize_project summary_paths project_name mpInit projLLM oai writeOk writeErr
          tsFile tsDisp fs).1 = true) ∧
    (mpInit = false →
      summarize_project summary_paths project_name mpInit projLLM oai writeOk writeErr
          tsFile tsDisp fs = (GEMINI_PROJECT_NOT_INIT, fs)) := by
  refine ⟨?_, ?_, ?_⟩
  · intro hmp hw
    subst hmp
    subst hw
    exact ⟨rfl, ⟨_, rfl⟩⟩
  · intro hmp hw
    subst hmp
    subst hw
    exact ⟨rfl, rfl⟩
  · intro hmp
    subst hmp
    rfl

/-- Witness for `C3_cleanup_iff_write`: one staged artifact, exercising
both the successful-write branch (artifact deleted) and the failed-write
branch (artifact kept, error marker returned). -/
theorem C3_cleanup_witness :
    ((summarize_project ["temp_summaries/a.py.md".toList] "r".toList true
        (fun _ => GenOutcome.ok "s".toList) none true "e".toList "t1".toList "t2".toList
        ⟨[("temp_summaries/a.py.md".toList, "sum".toList)], []⟩).2.staged
      = [("temp_summaries/a.py.md".toList, "sum".toList)].filter
          (fun q => !(["temp_summaries/a.py.md".toList].contains q.1)) ∧
     ∃ rep, (summarize_project ["temp_summaries/a.py.md".toList] "r".toList true
        (fun _ => GenOutcome.ok "s".toList) none true "e".toList "t1".toList "t2".toList
        ⟨[("temp_summaries/a.py.md".toList, "sum".toList)], []⟩).2.reports = rep :: []) ∧
    ((summarize_project ["temp_summaries/a.py.md".toList] "r".toList true
        (fun _ => GenOutcome.ok "s".toList) none false "disk full".toList "t1".toList
        "t2".toList ⟨[("temp_summaries/a.py.md".toList, "sum".toList)], []⟩).2
      = ⟨[("temp_summaries/a.py.md".toList, "sum".toList)], []⟩ ∧
     "[ERROR]".toList.isPrefixOf
       (summarize_project ["temp_summaries/a.py.md".toList] "r".toList true
        (fun _ => GenOutcome.ok "s".toList) none false "disk full".toList "t1".toList
        "t2".toList ⟨[("temp_summaries/a.py.md".toList, "sum".toList)], []⟩).1 = true) :=
  ⟨(C3_cleanup_iff_write ["temp_summaries/a.py.md".toList] "r".toList true
      (fun _ => GenOutcome.ok "s".toList) none true "e".toList "t1".toList "t2".toList
      ⟨[("temp_summaries/a.py.md".toList, "sum".toList)], []⟩).1 rfl rfl,
   (C3_cleanup_iff_write ["temp_summaries/a.py.md".toList] "r".toList true
      (fun _ => GenOutcome.ok "s".toList) none false "disk full".toList "t1".toList
      "t2".toList ⟨[("temp_summaries/a.py.md".toList, "sum".toList)], []⟩).2.1 rfl rfl⟩

/-- Claim C5 (amended).  If writing the final report fails,
`summarize_project` returns an error-marker string instead of raising;
the batch endpoint's aggregation step therefore does not fail the
request: it returns a success result whose `project_summary_file` field
is that error marker, and the staged artifacts are left in place.  (The
request would fail only if `summarize_project` raised, which its
write-failure path never does.) -/
theorem C5_aggregation_failure_amended (owner repo : Str) (totalFetched : Nat)
    (valid : List Str) (mpInit : Bool) (projLLM : Str → GenOutcome)
    (oai : Option (Except Str Str)) (writeErr tsFile tsDisp : Str) (fs : FS)
    (hmp : mpInit = true) :
    (batch_finalize owner repo totalFetched valid mpInit projLLM oai false writeErr
        tsFile tsDisp fs).1
      = Except.ok ⟨owner ++ "/".toList ++ repo, totalFetched, valid.length,
          "[ERROR] Failed to write final summary file: ".toList ++ writeErr⟩ ∧
    (batch_finalize owner repo totalFetched valid mpInit projLLM oai false writeErr
        tsFile tsDisp fs).2 = fs := by
  subst hmp
  exact ⟨rfl, rfl⟩

/-- Claim C5 (counterexample to the claim as stated).  A concrete batch
run whose report write fails: the caller receives a success result whose
report location is the error-marker string — not a fatal error. -/
theorem C5_aggregation_failure_counterexample :
    (batch_finalize "o".toList "r".toList 1 ["temp_summaries/a.py.md".toList] true
        (fun _ => GenOutcome.ok "s".toList) none false "disk full".toList
        "t1".toList "t2".toList
        ⟨[("temp_summaries/a.py.md".toList, "sum".toList)], []⟩).1
      = Except.ok ⟨"o/r".toList, 1, 1,
          "[ERROR] Failed to write final summary file: disk full".toList⟩ := by
  decide

/-- Witness for `C5_aggregation_failure_amended` at a concrete failing
write. -/
theorem C5_aggregation_failure_witness :
    (batch_finalize "o".toList "r".toList 2 ["temp_summaries/b.md.md".toList] true
        (fun _ => GenOutcome.ok "s".toList) none false "io error".toList
        "t1".toList "t2".toList ⟨[], []⟩).1
      = Except.ok ⟨"o".toList ++ "/".toList ++ "r".toList, 2,
          ["temp_summaries/b.md.md".toList].length,
          "[ERROR] Failed to write final summary file: ".toList ++ "io error".toList⟩ ∧
    (batch_finalize "o".toList "r".toList 2 ["temp_summaries/b.md.md".toList] true
        (fun _ => GenOutcome.ok "s".toList) none false "io error".toList
        "t1".toList "t2".toList ⟨[], []⟩).2 = ⟨[], []⟩ :=
  C5_aggregation_failure_amended "o".toList "r".toList 2 ["temp_summaries/b.md.md".toList]
    true (fun _ => GenOutcome.ok "s".toList) none "io error".toList
    "t1".toList "t2".toList ⟨[], []⟩ rfl

/-- Claim C10 (amended).  When the Gemini file model is not initialized,
`summarize_file` itself returns the truthy marker string
"[ERROR] Gemini file model not initialized." for every input instead of
`None`, and the coordinator's truthiness filter would collect such a
string as a valid staging location; but the coordinator never receives
it: its three-argument call raises `TypeError` before the body of
`summarize_file` runs, so every per-file result is `None` and the batch
run terminates with "All file summaries failed." without passing anything
to the aggregator. -/
theorem C10_uninitialized_model_amended (owner repo : Str)
    (files : List (Str × FileData)) (mpInit : Bool)
    (chunkGen : Str → Nat → GenOutcome) (projLLM : Str → GenOutcome)
    (oai : Option (Except Str Str)) (stageWriteOk : Str → Bool)
    (reportWriteOk : Bool) (reportWriteErr tsFile tsDisp : Str) (fs : FS)
    (h : files.filter (fun pd => passesFilter pd.1 pd.2) ≠ []) :
    (∀ path content fs1, summarize_file false chunkGen oai stageWriteOk path content fs1
        = (some GEMINI_FILE_NOT_INIT, fs1)) ∧
    truthyFilter [some GEMINI_FILE_NOT_INIT] = [GEMINI_FILE_NOT_INIT] ∧
    analyze_repo owner repo (Except.ok files) false mpInit chunkGen projLLM oai
        stageWriteOk reportWriteOk reportWriteErr tsFile tsDisp fs
      = (Except.error ⟨500, "All file summaries failed.".toList⟩, fs) :=
  ⟨fun _ _ _ => rfl, by decide,
   analyze_repo_all_summaries_fail owner repo files false mpInit chunkGen projLLM oai
     stageWriteOk reportWriteOk reportWriteErr tsFile tsDisp fs h⟩

/-- Claim C10 (counterexample to the claim as stated).  With the Gemini
file model uninitialized and one qualifying file, the coordinator does
not collect the marker string: the per-file call yields `None` (the
`TypeError` precedes `summarize_file`'s body) and the run fails before
the aggregator is ever invoked. -/
theorem C10_uninitialized_model_counterexample :
    (summarize_path false (fun _ _ => GenOutcome.rateLimited) none (fun _ => true)
        ⟨[], []⟩ "a.py".toList ⟨none, "x".toList⟩).1 = none ∧
    (analyze_repo "o".toList "r".toList
        (Except.ok [("a.py".toList, ⟨none, "x".toList⟩)])
        false true (fun _ _ => GenOutcome.rateLimited) (fun _ => GenOutcome.ok "s".toList)
        none (fun _ => true) true "e".toList "t1".toList "t2".toList ⟨[], []⟩).1
      = Except.error ⟨500, "All file summaries failed.".toList⟩ := by
  refine ⟨rfl, by decide⟩

/-- Witness for `C10_uninitialized_model_amended`. -/
theorem C10_uninitialized_model_witness :
    (∀ path content fs1, summarize_file false (fun _ _ => GenOutcome.rateLimited) none
        (fun _ => true) path content fs1 = (some GEMINI_FILE_NOT_INIT, fs1)) ∧
    truthyFilter [some GEMINI_FILE_NOT_INIT] = [GEMINI_FILE_NOT_INIT] ∧
    analyze_repo "o".toList "r".toList
        (Except.ok [("b.md".toList, ⟨none, "hello".toList⟩)])
        false true (fun _ _ => GenOutcome.rateLimited) (fun _ => GenOutcome.ok "s".toList)
        none (fun _ => true) true "e".toList "t1".toList "t2".toList ⟨[], []⟩
      = (Except.error ⟨500, "All file summaries failed.".toList⟩, ⟨[], []⟩) :=
  C10_uninitialized_model_amended "o".toList "r".toList
    [("b.md".toList, ⟨none, "hello".toList⟩)] true
    (fun _ _ => GenOutcome.rateLimited) (fun _ => GenOutcome.ok "s".toList)
    none (fun _ => true) true "e".toList "t1".toList "t2".toList ⟨[], []⟩ (by decide)
